import Mathlib

/-!
# tsuru: healers of the juju provisioner, status collection of the docker provisioner

A shallow embedding of `provision/juju/healer.go`.  External collaborators
(configuration, the object store, the compute and load-balancer APIs, the
application store, remote commands, the coordination tool's status output)
are oracles of a world structure; every side effect a healer performs is
appended to a trace, so that "which calls were made, in which order" is a
statement about a list.

Go strings are represented by `String`, Go `error` values by their message,
a `nil` slice by the empty list.
-/

namespace Tsuru

/-- Go `error`, represented by its message. -/
abbrev Err := String

/-! ## The parts of Go's `strings` package the healers use -/

namespace strings

/-- Worker of `Replace` for a non-empty `old`: the first argument counts the
characters of a match that are still to be skipped. -/
def replaceAux (old new : List Char) : Nat → List Char → List Char
  | _, [] => []
  | skip + 1, _ :: cs => replaceAux old new skip cs
  | 0, c :: cs =>
    if old.isPrefixOf (c :: cs) then new ++ replaceAux old new (old.length - 1) cs
    else c :: replaceAux old new 0 cs

/-- Go `strings.Replace(s, old, new, -1)`: every non-overlapping occurrence of
`old`, scanning from the left, is replaced by `new`; an empty `old` matches
before every character and at the end. -/
def Replace (s old new : String) : String :=
  if old.data.isEmpty then
    String.mk (s.data.foldr (fun c acc => new.data ++ c :: acc) new.data)
  else
    String.mk (replaceAux old.data new.data 0 s.data)

/-- Worker of `Split` for a non-empty separator: `cur` is the current piece,
reversed. -/
def splitAux (sep : List Char) : Nat → List Char → List Char → List (List Char)
  | _, cur, [] => [cur.reverse]
  | skip + 1, cur, _ :: cs => splitAux sep skip cur cs
  | 0, cur, c :: cs =>
    if sep.isPrefixOf (c :: cs) then cur.reverse :: splitAux sep (sep.length - 1) [] cs
    else splitAux sep 0 (c :: cur) cs

/-- Go `strings.Split(s, sep)`: the pieces of `s` between the non-overlapping
occurrences of `sep`; an empty `sep` splits after every character. -/
def Split (s sep : String) : List String :=
  if sep.data.isEmpty then s.data.map (fun c => String.mk [c])
  else (splitAux sep.data 0 [] s.data).map String.mk

/-- Go `strings.Join(a, sep)`. -/
def Join (a : List String) (sep : String) : String :=
  String.mk (List.intercalate sep.data (a.map String.data))

/-- Go `strings.Contains(s, substr)`. -/
def Contains (s substr : String) : Bool :=
  s.data.tails.any (fun t => substr.data.isPrefixOf t)

end strings

/-- Go `bufio.Reader.ReadString(delim)` on a stream that delivers `data` and
then ends: the data up to and including the first `delim`, or all of it when
there is none (the error of that case is discarded by the caller). -/
def readString (delim : Char) : List Char → List Char
  | [] => []
  | c :: cs => if c = delim then [c] else c :: readString delim cs

/-! ## Data model -/

namespace provision

/-- Modelled from the spec: the unit status enumeration of package `provision`
(§4.2: `Creating → Installing → Started`, and the failure states `Down`,
`Error`); the package's declarations are not among the source files. -/
inductive Status
  | StatusCreating
  | StatusInstalling
  | StatusStarted
  | StatusDown
  | StatusError
  deriving DecidableEq, Repr

/-- Modelled from the spec: `provision.Unit` (§3), with the fields the test
`TestCollectStatus` sets; a record that was stored without a status has
`none`. -/
structure Unit where
  Name : String
  AppName : String
  Type_ : String
  Machine : Int
  Ip : String
  InstanceId : String
  Status : Option Status
  deriving DecidableEq, Repr

end provision

/-- Modelled from the spec: `app.App`, restricted to the two fields
`getUnhealthyApps` selects from the store (`name` and `units`). -/
structure App where
  Name : String
  Units : List provision.Unit
  deriving DecidableEq, Repr

/-- The zero value of `app.App`, which a Go map yields for a missing key. -/
def App.zero : App := { Name := "", Units := [] }

/-- One entry of `elb.DescribeInstanceHealthResp.InstanceStates`. -/
structure InstanceState where
  Description : String
  InstanceId : String
  ReasonCode : String
  State : String
  deriving DecidableEq, Repr

/-- One entry of `elb.DescribeLoadBalancerResp.LoadBalancerDescriptions`,
restricted to the field the healer reads. -/
structure LoadBalancerDescription where
  LoadBalancerName : String
  deriving DecidableEq, Repr

/-- The transient record `elbInstance` (§3). -/
structure elbInstance where
  description : String
  id : String
  lb : String
  reasonCode : String
  state : String
  deriving DecidableEq, Repr

/-- Package `config`: a lookup fails when the key is absent or has another
type; the value returned beside an error is the zero value. -/
structure Config where
  GetBool : String → Except Err Bool
  GetString : String → Except Err String

/-! ## elbInstanceHealer -/

/-- Every call `elbInstanceHealer` makes to a collaborator.  A
`DescribeInstanceHealth` entry also records the answer the API gave. -/
inductive ElbCall
  | DescribeLoadBalancers (names : List String)
  | DescribeInstanceHealth (lb : String) (resp : Except Err (List InstanceState))
  | RemoveUnit (a : App) (unitId : String)
  | AddUnits (a : App) (n : Nat)

/-- The collaborators of `elbInstanceHealer`. -/
structure ElbWorld where
  /-- the configuration -/
  config : Config
  /-- the error of `db.Conn()`, if any -/
  connErr : Option Err
  /-- the outcome of `conn.Apps().Find(nil).Select(s).All(&all)` -/
  findAll : Except Err (List App)
  /-- the order in which `range` visits the keys of a map -/
  rangeOrder : List String → List String
  /-- the load-balancer API -/
  DescribeLoadBalancers : List String → Except Err (List LoadBalancerDescription)
  /-- the load-balancer API -/
  DescribeInstanceHealth : String → Except Err (List InstanceState)
  /-- the outcome of `App.RemoveUnit` -/
  RemoveUnit : App → String → Option Err
  /-- the outcome of `App.AddUnits` -/
  AddUnits : App → Nat → Option Err

/-- A Go `map[string]app.App`, as its key/value entries. -/
abbrev AppMap := List (String × App)

/-- The assignment `m[k] = v`. -/
def AppMap.insert (m : AppMap) (k : String) (v : App) : AppMap :=
  if m.any (fun e => e.1 == k) then m.map (fun e => if e.1 == k then (k, v) else e)
  else m ++ [(k, v)]

/-- The lookup `m[k]`, the zero value for a missing key. -/
def AppMap.get (m : AppMap) (k : String) : App :=
  match m.find? (fun e => e.1 == k) with
  | some e => e.2
  | none => App.zero

/-- The keys of the map. -/
def AppMap.keys (m : AppMap) : List String := m.map Prod.fst

/-- The test of `getUnhealthyApps`'s inner loop: some unit of the app has
status `Down` or `Error`. -/
def hasUnhealthyUnit : List provision.Unit → Bool
  | [] => false
  | u :: us =>
    if u.Status = some provision.Status.StatusDown ∨
        u.Status = some provision.Status.StatusError then true
    else hasUnhealthyUnit us

/-- The outer loop of `getUnhealthyApps`. -/
def collectUnhealthy : List App → AppMap → AppMap
  | [], apps => apps
  | a :: rest, apps =>
    collectUnhealthy rest (if hasUnhealthyUnit a.Units then apps.insert a.Name a else apps)

/-- `elbInstanceHealer.getUnhealthyApps`; a `nil` map is the empty map. -/
def getUnhealthyApps (w : ElbWorld) : AppMap :=
  match w.connErr with
  | some _ => []
  | none =>
    match w.findAll with
    | .error _ => []
    | .ok all => collectUnhealthy all []

/-- `elbInstanceHealer.describeLoadBalancers`. -/
def describeLoadBalancers (w : ElbWorld) (names : List String) :
    Except Err (List String) × List ElbCall :=
  match w.DescribeLoadBalancers names with
  | .error e => (.error e, [ElbCall.DescribeLoadBalancers names])
  | .ok descs => (.ok (descs.map (fun d => d.LoadBalancerName)), [ElbCall.DescribeLoadBalancers names])

/-- The body of the loop of `describeInstancesHealth`: the `elbInstance` built
from one instance state of the load balancer `lb`. -/
def instanceOf (lb : String) (st : InstanceState) : elbInstance :=
  { id := st.InstanceId, description := st.Description, reasonCode := st.ReasonCode,
    state := st.State, lb := lb }

/-- `elbInstanceHealer.describeInstancesHealth`. -/
def describeInstancesHealth (w : ElbWorld) (lb : String) :
    Except Err (List elbInstance) × List ElbCall :=
  match w.DescribeInstanceHealth lb with
  | .error e => (.error e, [ElbCall.DescribeInstanceHealth lb (.error e)])
  | .ok states =>
    (.ok (states.map (instanceOf lb)), [ElbCall.DescribeInstanceHealth lb (.ok states)])

/-- The description `checkInstances` compares with. -/
def unhealthyDescription : String :=
  "Instance has failed at least the UnhealthyThreshold number of health checks consecutively."

/-- The condition of the `if` in `checkInstances`. -/
def matchesTriad (i : elbInstance) : Bool :=
  i.description == unhealthyDescription && i.state == "OutOfService" && i.reasonCode == "Instance"

/-- The inner loop of `checkInstances`: matching instances are appended. -/
def appendMatching : List elbInstance → List elbInstance → List elbInstance
  | [], unhealthy => unhealthy
  | i :: rest, unhealthy =>
    appendMatching rest (if matchesTriad i then unhealthy ++ [i] else unhealthy)

/-- The outer loop of `checkInstances`, over the described load balancers. -/
def checkLoop (w : ElbWorld) : List String → List elbInstance →
    Except Err (List elbInstance) × List ElbCall
  | [], unhealthy => (.ok unhealthy, [])
  | lb :: lbs, unhealthy =>
    match describeInstancesHealth w lb with
    | (.error e, t) => (.error e, t)
    | (.ok instances, t) =>
      let r := checkLoop w lbs (appendMatching instances unhealthy)
      (r.1, t ++ r.2)

/-- `config.GetBool(key)` with the error discarded. -/
def getBoolOrFalse (c : Config) (key : String) : Bool :=
  match c.GetBool key with
  | .ok b => b
  | .error _ => false

/-- `elbInstanceHealer.checkInstances`. -/
def checkInstances (w : ElbWorld) (names : List String) :
    Except Err (List elbInstance) × List ElbCall :=
  if !getBoolOrFalse w.config "juju:use-elb" then (.ok [], [])
  else
    match describeLoadBalancers w names with
    | (.error e, t) => (.error e, t)
    | (.ok lbs, t) =>
      let r := checkLoop w lbs []
      (r.1, t ++ r.2)

/-- The loop of `elbInstanceHealer.Heal` over the unhealthy instances. -/
def healInstances (w : ElbWorld) (apps : AppMap) : List elbInstance → Option Err × List ElbCall
  | [] => (none, [])
  | instance_ :: rest =>
    let a := apps.get instance_.lb
    match w.RemoveUnit a instance_.id with
    | some err => (some err, [ElbCall.RemoveUnit a instance_.id])
    | none =>
      match w.AddUnits a 1 with
      | some err => (some err, [ElbCall.RemoveUnit a instance_.id, ElbCall.AddUnits a 1])
      | none =>
        let r := healInstances w apps rest
        (r.1, ElbCall.RemoveUnit a instance_.id :: ElbCall.AddUnits a 1 :: r.2)

/-- `elbInstanceHealer.Heal`: the returned error and the calls made. -/
def elbInstanceHealer.Heal (w : ElbWorld) : Option Err × List ElbCall :=
  let apps := getUnhealthyApps w
  if apps.length = 0 then (none, [])
  else
    let names := w.rangeOrder apps.keys
    match checkInstances w names with
    | (.ok instances, t) =>
      if instances.length > 0 then
        let r := healInstances w apps instances
        (r.1, t ++ r.2)
      else (none, t)
    | (.error _, t) => (none, t)

/-- The instances a recorded call reported to the healer. -/
def ElbCall.reported : ElbCall → List elbInstance
  | .DescribeInstanceHealth lb (.ok states) => states.map (instanceOf lb)
  | _ => []

/-- The instances of the health reports the healer obtained, in the order it
obtained them. -/
def observedInstances (trace : List ElbCall) : List elbInstance :=
  trace.flatMap ElbCall.reported

/-- Whether a recorded call is a `RemoveUnit` or an `AddUnits`. -/
def ElbCall.isUnitCall : ElbCall → Bool
  | .RemoveUnit _ _ => true
  | .AddUnits _ _ => true
  | _ => false

/-- The `RemoveUnit` and `AddUnits` calls of a trace. -/
def unitCalls (trace : List ElbCall) : List ElbCall :=
  trace.filter ElbCall.isUnitCall

/-- The stored apps of the sample world: `myapp` has a unit that is down,
`other` is healthy. -/
def demoApps : List App :=
  [ { Name := "myapp",
      Units := [{ Name := "myapp/0", AppName := "myapp", Type_ := "python", Machine := 1,
                  Ip := "10.10.10.10", InstanceId := "i-0800",
                  Status := some provision.Status.StatusDown }] },
    { Name := "other",
      Units := [{ Name := "other/0", AppName := "other", Type_ := "python", Machine := 2,
                  Ip := "10.10.10.11", InstanceId := "i-0900",
                  Status := some provision.Status.StatusStarted }] } ]

/-- The health reports of the sample world: a report for `myapp` in which
only `i-0800` matches the triad, an empty report for any other name. -/
def demoStates (lb : String) : List InstanceState :=
  if lb = "myapp" then
    [ { Description := unhealthyDescription, InstanceId := "i-0800",
        ReasonCode := "Instance", State := "OutOfService" },
      { Description := "Instance registration is still in progress.", InstanceId := "i-0801",
        ReasonCode := "ELB", State := "OutOfService" },
      { Description := "N/A", InstanceId := "i-0802", ReasonCode := "N/A",
        State := "InService" } ]
  else []

/-- A sample world: integration enabled, one app with a unit that is down and
one healthy app, a load balancer per app name, the health reports of
`demoStates`, and unit calls that succeed. -/
def demoElbWorld : ElbWorld where
  config :=
    { GetBool := fun k => if k = "juju:use-elb" then .ok true else .error "key not found"
      GetString := fun _ => .error "key not found" }
  connErr := none
  findAll := .ok demoApps
  rangeOrder := fun keys => keys
  DescribeLoadBalancers := fun names => .ok (names.map LoadBalancerDescription.mk)
  DescribeInstanceHealth := fun lb => .ok (demoStates lb)
  RemoveUnit := fun _ _ => none
  AddUnits := fun _ _ => none

/-- The sample world with load-balancer integration switched off. -/
def disabledElbWorld : ElbWorld :=
  { demoElbWorld with
    config :=
      { GetBool := fun k => if k = "juju:use-elb" then .ok false else .error "key not found"
        GetString := fun _ => .error "key not found" } }

/-- The name lists of the `DescribeLoadBalancers` calls of a trace. -/
def lookups : List ElbCall → List (List String)
  | [] => []
  | .DescribeLoadBalancers names :: rest => names :: lookups rest
  | _ :: rest => lookups rest

/-- Whether a recorded call is a `RemoveUnit`. -/
def ElbCall.isRemoveUnit : ElbCall → Bool
  | .RemoveUnit _ _ => true
  | _ => false

/-- A health entry that matches the triad, for the instance `i-0800`. -/
def failing0800 : InstanceState :=
  { Description := unhealthyDescription, InstanceId := "i-0800",
    ReasonCode := "Instance", State := "OutOfService" }

/-- A health entry that matches the triad, for the instance `i-0801`. -/
def failing0801 : InstanceState :=
  { Description := unhealthyDescription, InstanceId := "i-0801",
    ReasonCode := "Instance", State := "OutOfService" }

/-- The sample world with a second matching instance in the report of
`myapp` and a `RemoveUnit` that fails for `i-0800`. -/
def failingElbWorld : ElbWorld :=
  { demoElbWorld with
    DescribeInstanceHealth := fun lb =>
      .ok (if lb = "myapp" then [failing0800, failing0801] else [])
    RemoveUnit := fun _ unitId => if unitId = "i-0800" then some "exit status 1" else none }

/-- Whether both calls of the loop of `Heal` succeed for an instance. -/
def replaceSucceeds (w : ElbWorld) (apps : AppMap) (i : elbInstance) : Bool :=
  (w.RemoveUnit (apps.get i.lb) i.id).isNone && (w.AddUnits (apps.get i.lb) 1).isNone

/-- The error the loop of `Heal` gets for an instance: that of `RemoveUnit`,
or else that of `AddUnits`. -/
def replaceError (w : ElbWorld) (apps : AppMap) (i : elbInstance) : Option Err :=
  match w.RemoveUnit (apps.get i.lb) i.id with
  | some err => some err
  | none => w.AddUnits (apps.get i.lb) 1

/-- An app named `broken` with a unit that is down. -/
def brokenApp : App :=
  { Name := "broken",
    Units := [{ Name := "broken/0", AppName := "broken", Type_ := "python", Machine := 3,
                Ip := "10.10.10.12", InstanceId := "i-0a00",
                Status := some provision.Status.StatusDown }] }

/-- The sample world with a second unhealthy app, `broken`, whose health
report the load-balancer API fails to give; the unit calls succeed. -/
def partialFailureElbWorld : ElbWorld :=
  { demoElbWorld with
    findAll := .ok (demoApps ++ [brokenApp])
    DescribeInstanceHealth := fun lb =>
      if lb = "broken" then .error "Throttling" else .ok (demoStates lb) }

/-! ## The healers that work on the coordination tool's status output -/

/-- Modelled from the spec: the record `machine` of the status output (§3:
`InstanceId`, `IpAddress`, `AgentState`), declared in the provisioner's file,
which is not among the source files. -/
structure machine where
  AgentState : String
  IpAddress : String
  InstanceId : String
  deriving DecidableEq, Repr

/-- Modelled from the spec: the record `unit` of the status output (§3:
`PublicAddress`, `AgentState`, `Machine`), declared in the provisioner's file. -/
structure unit where
  AgentState : String
  Machine : Int
  PublicAddress : String
  deriving DecidableEq, Repr

/-- Modelled from the spec: a service of the status output, its units keyed by
their hierarchical name (§3); the map is given by its entries in the order
`range` visits them. -/
structure service where
  Units : List (String × unit)
  deriving DecidableEq, Repr

/-- Modelled from the spec: the service topology snapshot (§3) that
`JujuProvisioner.getOutput` returns; both maps are given by their entries in
the order `range` visits them, the machines keyed by their number. -/
structure jujuOutput where
  Services : List (String × service)
  Machines : List (Int × machine)
  deriving DecidableEq, Repr

/-- A command started with `exec.Command(name, args...)`. -/
structure Cmd where
  name : String
  args : List String
  deriving DecidableEq, Repr

/-- The collaborators of the healers that read the status output. -/
structure JujuWorld where
  /-- the snapshot the `n`-th call of `getOutput` within one `Heal` yields -/
  getOutput : Nat → jujuOutput
  /-- the outcome of `Run` for a command, given the commands run before it -/
  Run : List Cmd → Cmd → Option Err
  /-- the outcome of `net.Dial(network, address)`: an error, or a connection,
  given as the data the peer answers to what is written to it -/
  Dial : String → String → Except Err (String → String)

/-- The lookup `output.Machines[0]`, the zero value for a missing key. -/
def machineZero (machines : List (Int × machine)) : machine :=
  match machines.find? (fun e => e.1 == 0) with
  | some e => e.2
  | none => { AgentState := "", IpAddress := "", InstanceId := "" }

/-- `getBootstrapMachine`, at the `n`-th call of `getOutput`. -/
def getBootstrapMachine (w : JujuWorld) (n : Nat) : machine :=
  machineZero (w.getOutput n).Machines

/-- `upStartCmd`: the command is appended to the commands `done` so far. -/
def upStartCmd (w : JujuWorld) (cmd daemon machine : String) (done : List Cmd) :
    Option Err × List Cmd :=
  let args := ["-o", "StrictHostKeyChecking no", "-q", "-l", "ubuntu", machine, "sudo", cmd, daemon]
  let c : Cmd := { name := "ssh", args := args }
  (w.Run done c, done ++ [c])

/-- The loop of `instanceUnitHealer.Heal` over the units of one service. -/
def healUnits (w : JujuWorld) : List (String × unit) → List Cmd → List Cmd
  | [], done => done
  | (unitName, u) :: rest, done =>
    let agent := "juju-" ++ strings.Join (strings.Split unitName "/") "-"
    if u.AgentState = "down" then
      let r1 := upStartCmd w "stop" agent u.PublicAddress done
      let r2 := upStartCmd w "start" agent u.PublicAddress r1.2
      healUnits w rest r2.2
    else healUnits w rest done

/-- The loop of `instanceUnitHealer.Heal` over the services. -/
def healServices (w : JujuWorld) : List (String × service) → List Cmd → List Cmd
  | [], done => done
  | (_, s) :: rest, done => healServices w rest (healUnits w s.Units done)

/-- `instanceUnitHealer.Heal`: the returned error and the commands run. -/
def instanceUnitHealer.Heal (w : JujuWorld) : Option Err × List Cmd :=
  let output := w.getOutput 0
  (none, healServices w output.Services [])

/-- The loop of `instanceMachineHealer.Heal`. -/
def healMachines (w : JujuWorld) : List (Int × machine) → List Cmd → List Cmd
  | [], done => done
  | (_, m) :: rest, done =>
    if m.AgentState = "down" then
      let r1 := upStartCmd w "stop" "juju-machine-agent" m.IpAddress done
      let r2 := upStartCmd w "start" "juju-machine-agent" m.IpAddress r1.2
      healMachines w rest r2.2
    else healMachines w rest done

/-- `instanceMachineHealer.Heal`: the returned error and the commands run. -/
def instanceMachineHealer.Heal (w : JujuWorld) : Option Err × List Cmd :=
  let output := w.getOutput 0
  (none, healMachines w output.Machines [])

/-- `zookeeperHealer.needsHeal`. -/
def zookeeperHealer.needsHeal (w : JujuWorld) : Bool :=
  let bootstrapMachine := getBootstrapMachine w 0
  match w.Dial "tcp" (bootstrapMachine.IpAddress ++ ":2181") with
  | .error _ => true
  | .ok conn =>
    let status := String.mk (readString '\n' (conn "ruok\r\n\r\n").data)
    !strings.Contains status "imok"

/-- `zookeeperHealer.Heal`: the returned error and the commands run. -/
def zookeeperHealer.Heal (w : JujuWorld) : Option Err × List Cmd :=
  if zookeeperHealer.needsHeal w then
    let bootstrapMachine := getBootstrapMachine w 1
    let r1 := upStartCmd w "stop" "zookeeper" bootstrapMachine.IpAddress []
    upStartCmd w "start" "zookeeper" bootstrapMachine.IpAddress r1.2
  else (none, [])

/-- The first line of a response, as the spec words the probe: the text before
the first line feed. -/
def firstLine (s : String) : String :=
  String.mk (s.data.takeWhile (fun c => c != '\n'))

/-- The name the spec gives the agent of a unit: `juju-` followed by the
hierarchical name with every `/` replaced by `-`. -/
def agentNameSpec (unitName : String) : String :=
  "juju-" ++ String.mk (unitName.data.map (fun c => if c = '/' then '-' else c))

/-- A sample status output: machine 0
is the bootstrap machine, machine 2 is down, and of the two units of
`wordpress` the first is down. -/
def demoOutput : jujuOutput where
  Services :=
    [("wordpress",
      { Units :=
          [("wordpress/0", { AgentState := "down", Machine := 1, PublicAddress := "10.10.10.1" }),
           ("wordpress/1",
            { AgentState := "started", Machine := 2, PublicAddress := "10.10.10.2" })] })]
  Machines :=
    [(0, { AgentState := "running", IpAddress := "10.10.10.96", InstanceId := "i-00000376" }),
     (1, { AgentState := "running", IpAddress := "10.10.10.1", InstanceId := "i-00000439" }),
     (2, { AgentState := "down", IpAddress := "10.10.10.2", InstanceId := "i-0000043e" })]

/-- A world whose coordination service answers `imok` and whose remote
commands all fail. -/
def healthyJujuWorld : JujuWorld where
  getOutput := fun _ => demoOutput
  Run := fun _ _ => some "exit status 255"
  Dial := fun _ address =>
    if address = "10.10.10.96:2181" then .ok (fun _ => "imok") else .error "connection refused"

/-- A world whose coordination service cannot be reached. -/
def deadZookeeperWorld : JujuWorld where
  getOutput := fun _ => demoOutput
  Run := fun _ _ => none
  Dial := fun _ _ => .error "connection refused"

/-! ## bootstrapInstanceIdHealer -/

/-- One entry of `ec2.Reservation.SecurityGroups`, restricted to the field the
healer reads. -/
structure SecurityGroup where
  Name : String
  deriving DecidableEq, Repr

/-- One entry of `ec2.Reservation.Instances`, restricted to the fields the
healers read. -/
structure Instance where
  InstanceId : String
  PrivateDNSName : String := ""
  deriving DecidableEq, Repr

/-- One entry of `ec2.InstancesResp.Reservations`. -/
structure Reservation where
  SecurityGroups : List SecurityGroup
  Instances : List Instance
  deriving DecidableEq, Repr

/-- The canned ACL `s3.BucketOwnerFull`. -/
def s3.BucketOwnerFull : String := "bucket-owner-full-control"

/-- A call `Bucket(bucket).Put(path, data, contType, perm)`. -/
structure PutCall where
  bucket : String
  path : String
  data : String
  contType : String
  perm : String
  deriving DecidableEq, Repr

/-- The collaborators of `bootstrapInstanceIdHealer`; the two endpoints are
taken as already built. -/
structure AwsWorld where
  /-- the configuration -/
  config : Config
  /-- the outcome of `Bucket(bucket).Get(path)` on the object store -/
  Get : String → String → Except Err String
  /-- the outcome of `Instances(nil, nil)` on the compute API: an error, or the
  `Reservations` of the response -/
  Instances : Except Err (List Reservation)
  /-- the error of a `Put`, if any -/
  Put : PutCall → Option Err

/-- `Bucket.Put`: a successful write replaces the content of the object. -/
def bucketPut (w : AwsWorld) (c : PutCall) : Option Err × AwsWorld :=
  match w.Put c with
  | some err => (some err, w)
  | none =>
    (none, { w with Get := fun b path => if b = c.bucket ∧ path = c.path then .ok c.data
                                          else w.Get b path })

/-- `bootstrapInstanceIdFromBucket`. -/
def bootstrapInstanceIdFromBucket (w : AwsWorld) : Except Err String :=
  match w.config.GetString "juju:bucket" with
  | .error err => .error err
  | .ok jujuBucket =>
    match w.Get jujuBucket "provider-state" with
    | .error err => .error err
    | .ok data =>
      let s := strings.Replace data "zookeeper-instances: [" ""
      let s := strings.Replace s "]" ""
      .ok s

/-- The loop of `bootstrapInstanceId` over the security groups of one
reservation: at a group named `juju-delta-0` the first instance of the
reservation, if there is one, is returned. -/
def scanGroups (reservation : Reservation) : List SecurityGroup → Option String
  | [] => none
  | group :: rest =>
    if group.Name = "juju-delta-0" then
      match reservation.Instances with
      | instance_ :: _ => some instance_.InstanceId
      | [] => scanGroups reservation rest
    else scanGroups reservation rest

/-- The loop of `bootstrapInstanceId` over the reservations. -/
def scanReservations : List Reservation → String
  | [] => ""
  | reservation :: rest =>
    match scanGroups reservation reservation.SecurityGroups with
    | some instanceId => instanceId
    | none => scanReservations rest

/-- `bootstrapInstanceId`. -/
def bootstrapInstanceId (w : AwsWorld) : Except Err String :=
  match w.Instances with
  | .error err => .error err
  | .ok reservations => .ok (scanReservations reservations)

/-- `bootstrapInstanceIdHealer.needsHeal`. -/
def bootstrapInstanceIdHealer.needsHeal (w : AwsWorld) : Bool :=
  match bootstrapInstanceIdFromBucket w with
  | .error _ => false
  | .ok s3InstanceId =>
    match bootstrapInstanceId w with
    | .error _ => false
    | .ok ec2InstanceId => if s3InstanceId ≠ ec2InstanceId then true else false

/-- What a run of `bootstrapInstanceIdHealer.Heal` leaves behind. -/
structure HealResult where
  /-- the returned error -/
  err : Option Err
  /-- the writes to the object store, in order -/
  writes : List PutCall
  /-- the world after the run -/
  world : AwsWorld

/-- `bootstrapInstanceIdHealer.Heal`. -/
def bootstrapInstanceIdHealer.Heal (w : AwsWorld) : HealResult :=
  if bootstrapInstanceIdHealer.needsHeal w then
    match w.config.GetString "juju:bucket" with
    | .error err => { err := some err, writes := [], world := w }
    | .ok jujuBucket =>
      match bootstrapInstanceId w with
      | .error err => { err := some err, writes := [], world := w }
      | .ok ec2InstanceId =>
        let c : PutCall :=
          { bucket := jujuBucket, path := "provider-state", data := ec2InstanceId,
            contType := "binary/octet-stream", perm := s3.BucketOwnerFull }
        let r := bucketPut w c
        { err := r.1, writes := [c], world := r.2 }
  else { err := none, writes := [], world := w }

/-- A sample world: the blob records
`i-0800` and the compute API reports `i-0801` as the bootstrap instance. -/
def demoAwsWorld : AwsWorld where
  config :=
    { GetBool := fun _ => .error "key not found"
      GetString := fun k => if k = "juju:bucket" then .ok "tsuru_s3_juju_bucket"
                            else .error "key not found" }
  Get := fun b path =>
    if b = "tsuru_s3_juju_bucket" ∧ path = "provider-state" then .ok "zookeeper-instances: [i-0800]"
    else .error "The specified key does not exist."
  Instances := .ok
    [ { SecurityGroups := [{ Name := "default" }], Instances := [{ InstanceId := "i-0700" }] },
      { SecurityGroups := [{ Name := "juju-delta" }, { Name := "juju-delta-0" }],
        Instances := [{ InstanceId := "i-0801" }] } ]
  Put := fun _ => none

/-- The characters after the `i-` of an instance id: hexadecimal digits. -/
def isHexDigit (c : Char) : Bool := "0123456789abcdef".data.contains c

/-- The shape of the instance ids the compute API reports: `i-` followed by
one or more hexadecimal digits, as in `i-00000376`. -/
def isInstanceId (s : String) : Bool :=
  "i-".data.isPrefixOf s.data && decide (2 < s.data.length) && (s.data.drop 2).all isHexDigit

/-- A world whose configured bucket holds `blob` as the object
`provider-state`, whose compute API reports the one instance `observed` in a
reservation of the group `juju-delta-0`, and whose writes succeed. -/
def awsWorldOf (blob observed : String) : AwsWorld :=
  { demoAwsWorld with
    Get := fun b path =>
      if b = "tsuru_s3_juju_bucket" ∧ path = "provider-state" then .ok blob
      else .error "The specified key does not exist."
    Instances := .ok
      [ { SecurityGroups := [{ Name := "juju-delta-0" }],
          Instances := [{ InstanceId := observed }] } ] }

/-- A world whose compute API lists a reservation of the group `juju-delta-0`
without instances and an instance of another group only; the blob records
`i-0800`. -/
def noBootstrapInstanceWorld : AwsWorld :=
  { demoAwsWorld with
    Instances := .ok
      [ { SecurityGroups := [{ Name := "juju-delta-0" }], Instances := [] },
        { SecurityGroups := [{ Name := "default" }], Instances := [{ InstanceId := "i-0700" }] } ] }

/-- A world whose compute API cannot be reached. -/
def unreachableEc2World : AwsWorld :=
  { demoAwsWorld with Instances := .error "connection refused" }

/-! ## The healers of the bootstrap machine and of the agents' configuration -/

/-- `bootstrapMachineHealer.needsHeal`. -/
def bootstrapMachineHealer.needsHeal (w : JujuWorld) : Bool :=
  let bootstrapMachine := getBootstrapMachine w 0
  bootstrapMachine.AgentState == "not-started"

/-- `bootstrapMachineHealer.Heal`: the returned error and the commands run. -/
def bootstrapMachineHealer.Heal (w : JujuWorld) : Option Err × List Cmd :=
  if bootstrapMachineHealer.needsHeal w then
    let bootstrapMachine := getBootstrapMachine w 1
    let r1 := upStartCmd w "stop" "juju-machine-agent" bootstrapMachine.IpAddress []
    upStartCmd w "start" "juju-machine-agent" bootstrapMachine.IpAddress r1.2
  else (none, [])

/-- `bootstrapProvisionHealer.Heal`: the returned error and the commands run. -/
def bootstrapProvisionHealer.Heal (w : JujuWorld) : Option Err × List Cmd :=
  let bootstrapMachine := getBootstrapMachine w 0
  upStartCmd w "start" "juju-provision-agent" bootstrapMachine.IpAddress []

/-- The collaborators of `instanceAgentsConfigHealer`: those of the healers
that read the status output, and the compute API asked for given instance
ids. -/
structure AgentsWorld where
  /-- the status output, the remote commands -/
  juju : JujuWorld
  /-- the outcome of `Instances(ids, nil)`: an error, or the `Reservations` of
  the response -/
  Instances : List String → Except Err (List Reservation)

/-- `instanceAgentsConfigHealer.getPrivateDns`; `none` stands for the run-time
panic of indexing an empty `Reservations` or `Instances`. -/
def getPrivateDns (w : AgentsWorld) (instanceId : String) : Option (Except Err String) :=
  match w.Instances [instanceId] with
  | .error err => some (.error err)
  | .ok reservations =>
    match reservations with
    | [] => none
    | reservation :: _ =>
      match reservation.Instances with
      | [] => none
      | instance_ :: _ => some (.ok instance_.PrivateDNSName)

/-- `instanceAgentsConfigHealer.bootstrapPrivateDns`; its `getBootstrapMachine`
is the second call of `getOutput` within `Heal`. -/
def bootstrapPrivateDns (w : AgentsWorld) : Option (Except Err String) :=
  let machine := getBootstrapMachine w.juju 1
  getPrivateDns w machine.InstanceId

/-- The `sed` expression that `instanceAgentsConfigHealer.Heal` passes. -/
def zookeeperLineRewrite (dns : String) : String :=
  "'s/env JUJU_ZOOKEEPER=.*/env JUJU_ZOOKEEPER=\"" ++ dns ++ ":2181\"/g'"

/-- The `grep` command of `instanceAgentsConfigHealer.Heal` for a file on a
host. -/
def grepCmd (dns address file : String) : Cmd :=
  { name := "ssh",
    args := ["-o", "StrictHostKeyChecking no", "-q", "-l", "ubuntu", address, "grep", dns, file] }

/-- The `sed` command of `instanceAgentsConfigHealer.Heal` for a file on a
host. -/
def sedCmd (dns address file : String) : Cmd :=
  { name := "ssh",
    args := ["-o", "StrictHostKeyChecking no", "-q", "-l", "ubuntu", address, "sudo", "sed", "-i",
      zookeeperLineRewrite dns, file] }

/-- The block that the loop of `instanceAgentsConfigHealer.Heal` runs for a
file (the source writes it out once for the machine agent and once for the
unit agent): the `grep` is run, and when it fails the `sed` is run, whose
outcome is discarded. -/
def ensureDns (w : AgentsWorld) (dns address file : String) (done : List Cmd) : List Cmd :=
  match w.juju.Run done (grepCmd dns address file) with
  | some _ => done ++ [grepCmd dns address file, sedCmd dns address file]
  | none => done ++ [grepCmd dns address file]

/-- The loop of `instanceAgentsConfigHealer.Heal` over the units of one
service. -/
def agentsConfigUnits (w : AgentsWorld) (dns : String) :
    List (String × unit) → List Cmd → List Cmd
  | [], done => done
  | (unitName, u) :: rest, done =>
    let done := ensureDns w dns u.PublicAddress "/etc/init/juju-machine-agent.conf" done
    let agent := "/etc/init/juju-" ++ strings.Join (strings.Split unitName "/") "-" ++ ".conf"
    let done := ensureDns w dns u.PublicAddress agent done
    agentsConfigUnits w dns rest done

/-- The loop of `instanceAgentsConfigHealer.Heal` over the services. -/
def agentsConfigServices (w : AgentsWorld) (dns : String) :
    List (String × service) → List Cmd → List Cmd
  | [], done => done
  | (_, s) :: rest, done => agentsConfigServices w dns rest (agentsConfigUnits w dns s.Units done)

/-- `instanceAgentsConfigHealer.Heal`: the returned error and the commands
run, or `none` for the panic of `getPrivateDns`; a failed lookup of the name
leaves `dns` empty. -/
def instanceAgentsConfigHealer.Heal (w : AgentsWorld) : Option (Option Err × List Cmd) :=
  let output := w.juju.getOutput 0
  match bootstrapPrivateDns w with
  | none => none
  | some r =>
    let dns := match r with
      | .ok name => name
      | .error _ => ""
    some (none, agentsConfigServices w dns output.Services [])

/-! ## The registry of healers -/

namespace heal

/-- Modelled from the spec: a Healer implementation (§4.3), given by its
capability `Heal() error` over the collaborators it uses; package `heal` is
not among the source files. -/
inductive Healer
  | onJuju (Heal : JujuWorld → Option Err × List Cmd)
  | onAgents (Heal : AgentsWorld → Option (Option Err × List Cmd))
  | onAws (Heal : AwsWorld → HealResult)
  | onElb (Heal : ElbWorld → Option Err × List ElbCall)

/-- Modelled from the spec: the registry (§4.3), a name-keyed mapping from a
healer name to a Healer implementation, as its entries. -/
abbrev Registry := List (String × Healer)

/-- Modelled from the spec: `heal.Register` binds the name to the healer in
the name-keyed mapping (§4.3); a name that is already bound is bound anew. -/
def Register (name : String) (h : Healer) (healers : Registry) : Registry :=
  if healers.any (fun e => e.1 == name) then
    healers.map (fun e => if e.1 == name then (name, h) else e)
  else healers ++ [(name, h)]

/-- Modelled from the spec: `heal.Get`, the lookup by name (§4.3); `none`
stands for the error of an unregistered name. -/
def Get (healers : Registry) (name : String) : Option Healer :=
  match healers.find? (fun e => e.1 == name) with
  | some e => some e.2
  | none => none

end heal

/-- The package's `init`, as the registry it leaves behind. -/
def init (healers : heal.Registry) : heal.Registry :=
  let healers := heal.Register "bootstrap" (.onJuju bootstrapMachineHealer.Heal) healers
  let healers := heal.Register "bootstrap-provision" (.onJuju bootstrapProvisionHealer.Heal) healers
  let healers := heal.Register "instance-machine" (.onJuju instanceMachineHealer.Heal) healers
  let healers :=
    heal.Register "instance-agents-config" (.onAgents instanceAgentsConfigHealer.Heal) healers
  let healers := heal.Register "instance-unit" (.onJuju instanceUnitHealer.Heal) healers
  let healers := heal.Register "zookeeper" (.onJuju zookeeperHealer.Heal) healers
  let healers := heal.Register "elb-instance" (.onElb elbInstanceHealer.Heal) healers
  let healers := heal.Register "bootstrap-instanceid" (.onAws bootstrapInstanceIdHealer.Heal) healers
  healers

/-- The names bound in a registry. -/
def heal.names (healers : heal.Registry) : List String := healers.map Prod.fst

/-! ## The rows of the spec's table of healers -/

namespace spec

/-- The remote remediation surface of the spec (§6):
`ssh -o "StrictHostKeyChecking no" -q -l ubuntu <host> sudo <stop|start> <daemon>`. -/
def remote (host action daemon : String) : Cmd :=
  { name := "ssh",
    args := ["-o", "StrictHostKeyChecking no", "-q", "-l", "ubuntu", host, "sudo", action, daemon] }

/-- The row of the bootstrap machine's healer (§4.4): it detects that the
bootstrap host's agent state is "not-started" and then stops and starts the
machine agent on that host; in any other state it does nothing. -/
def rowBootstrapMachine (Heal : JujuWorld → Option Err × List Cmd) : Prop :=
  ∀ w : JujuWorld,
    ((getBootstrapMachine w 0).AgentState = "not-started" →
        (Heal w).2 =
          [remote (getBootstrapMachine w 1).IpAddress "stop" "juju-machine-agent",
           remote (getBootstrapMachine w 1).IpAddress "start" "juju-machine-agent"])
    ∧ ((getBootstrapMachine w 0).AgentState ≠ "not-started" → Heal w = (none, []))

/-- The row `bootstrap-provision` (§4.4): no precondition, the provisioning
agent is started on the bootstrap host. -/
def rowBootstrapProvision (Heal : JujuWorld → Option Err × List Cmd) : Prop :=
  ∀ w : JujuWorld,
    (Heal w).2 = [remote (getBootstrapMachine w 0).IpAddress "start" "juju-provision-agent"]

/-- The row `instance-machine` (§4.4): every machine whose agent state is
"down" gets its agent stopped and started, no other machine gets a command. -/
def rowInstanceMachine (Heal : JujuWorld → Option Err × List Cmd) : Prop :=
  ∀ w : JujuWorld,
    Heal w = (none, (w.getOutput 0).Machines.flatMap (fun e =>
      if e.2.AgentState = "down" then
        [remote e.2.IpAddress "stop" "juju-machine-agent",
         remote e.2.IpAddress "start" "juju-machine-agent"]
      else []))

/-- The row `instance-unit` (§4.4): every service unit whose agent state is
"down" gets its agent stopped and started, the agent being named by
substituting `/` with `-` in the hierarchical unit name. -/
def rowInstanceUnit (Heal : JujuWorld → Option Err × List Cmd) : Prop :=
  ∀ w : JujuWorld,
    Heal w = (none, (w.getOutput 0).Services.flatMap (fun s => s.2.Units.flatMap (fun e =>
      if e.2.AgentState = "down" then
        [remote e.2.PublicAddress "stop" (agentNameSpec e.1),
         remote e.2.PublicAddress "start" (agentNameSpec e.1)]
      else [])))

/-- The check and the repair of one agent config file on a host, for the row
`instance-agents-config`: the file is searched for the name, and the address
line is rewritten when the search fails. -/
def checkAndRewrite (fails : Cmd → Bool) (dns address file : String) : List Cmd :=
  if fails (grepCmd dns address file) then [grepCmd dns address file, sedCmd dns address file]
  else [grepCmd dns address file]

/-- The row `instance-agents-config` (§4.4): with the bootstrap host's name
resolved and remote commands whose outcome depends on the command only, for
every unit the machine agent's config file and the unit agent's config file
on the unit's host are checked for the name, and the address line of a file
that does not reference it is rewritten. -/
def rowInstanceAgentsConfig (Heal : AgentsWorld → Option (Option Err × List Cmd)) : Prop :=
  ∀ (w : AgentsWorld) (dns : String) (fails : Cmd → Bool),
    bootstrapPrivateDns w = some (.ok dns) →
    (∀ done c, (w.juju.Run done c).isSome = fails c) →
    Heal w = some (none, (w.juju.getOutput 0).Services.flatMap (fun s =>
      s.2.Units.flatMap (fun e =>
        checkAndRewrite fails dns e.2.PublicAddress "/etc/init/juju-machine-agent.conf" ++
          checkAndRewrite fails dns e.2.PublicAddress
            ("/etc/init/" ++ agentNameSpec e.1 ++ ".conf"))))

/-- The row `zookeeper` (§4.4, §6): a probe whose first line contains `imok`
requires no action; a failed connection or any other first line gets the
coordination service stopped and started on the bootstrap host. -/
def rowZookeeper (Heal : JujuWorld → Option Err × List Cmd) : Prop :=
  ∀ w : JujuWorld,
    (∀ conn, w.Dial "tcp" ((getBootstrapMachine w 0).IpAddress ++ ":2181") = .ok conn →
        strings.Contains (firstLine (conn "ruok\r\n\r\n")) "imok" = true →
        Heal w = (none, []))
    ∧ (((∃ e, w.Dial "tcp" ((getBootstrapMachine w 0).IpAddress ++ ":2181") = .error e)
        ∨ ∃ conn, w.Dial "tcp" ((getBootstrapMachine w 0).IpAddress ++ ":2181") = .ok conn
            ∧ strings.Contains (firstLine (conn "ruok\r\n\r\n")) "imok" = false) →
        (Heal w).2 =
          [remote (getBootstrapMachine w 1).IpAddress "stop" "zookeeper",
           remote (getBootstrapMachine w 1).IpAddress "start" "zookeeper"])

/-- The row `bootstrap-instanceid` (§4.4): when the id recorded in the blob
differs from the observed bootstrap instance id the blob is overwritten with
the observed id, and when they are equal nothing is written. -/
def rowBootstrapInstanceId (Heal : AwsWorld → HealResult) : Prop :=
  ∀ (w : AwsWorld) (s3InstanceId ec2InstanceId : String),
    bootstrapInstanceIdFromBucket w = .ok s3InstanceId →
    bootstrapInstanceId w = .ok ec2InstanceId →
    (s3InstanceId = ec2InstanceId → (Heal w).writes = [])
    ∧ (s3InstanceId ≠ ec2InstanceId →
        ∃ jujuBucket, w.config.GetString "juju:bucket" = .ok jujuBucket
          ∧ (Heal w).writes =
            [{ bucket := jujuBucket, path := "provider-state", data := ec2InstanceId,
               contType := "binary/octet-stream", perm := s3.BucketOwnerFull }])

/-- The row `elb-instance` (§4.4), with the describe calls answering and the
unit calls succeeding.  With integration enabled and some app unhealthy, the
load balancers of the unhealthy apps are looked up, the health of each
described load balancer is asked for, and then each reported instance that
matches the triad, in report order, has its unit removed from the app of its
load balancer and one replacement unit added; these are all the calls, so no
other instance is acted on.  With integration disabled or no app unhealthy
nothing is done. -/
def rowElbInstance (Heal : ElbWorld → Option Err × List ElbCall) : Prop :=
  ∀ (w : ElbWorld) (descs : List String → List LoadBalancerDescription)
    (states : String → List InstanceState),
    (∀ ns, w.DescribeLoadBalancers ns = .ok (descs ns)) →
    (∀ lb, w.DescribeInstanceHealth lb = .ok (states lb)) →
    (∀ a unitId, w.RemoveUnit a unitId = none) → (∀ a n, w.AddUnits a n = none) →
    (w.config.GetBool "juju:use-elb" = .ok true → getUnhealthyApps w ≠ [] →
        Heal w =
          (none,
            ElbCall.DescribeLoadBalancers (w.rangeOrder (getUnhealthyApps w).keys) ::
              ((descs (w.rangeOrder (getUnhealthyApps w).keys)).map (fun d =>
                  ElbCall.DescribeInstanceHealth d.LoadBalancerName
                    (.ok (states d.LoadBalancerName))) ++
                (((descs (w.rangeOrder (getUnhealthyApps w).keys)).flatMap (fun d =>
                      (states d.LoadBalancerName).map (instanceOf d.LoadBalancerName))).filter
                    (fun i => decide (i.description =
                      "Instance has failed at least the UnhealthyThreshold number of health checks consecutively."
                      ∧ i.state = "OutOfService" ∧ i.reasonCode = "Instance"))).flatMap
                  (fun i =>
                    [ElbCall.RemoveUnit ((getUnhealthyApps w).get i.lb) i.id,
                     ElbCall.AddUnits ((getUnhealthyApps w).get i.lb) 1]))))
    ∧ ((w.config.GetBool "juju:use-elb" ≠ .ok true ∨ getUnhealthyApps w = []) →
        Heal w = (none, []))

end spec

/-! ## Status collection of the container-backed provisioner -/

namespace docker

/-- Modelled from the spec: the network settings in the output of
`inspect <id>` (§6: `NetworkSettings.IpAddress`, `IpPrefixLen`, `Gateway`,
`PortMapping: {<containerPort>: <hostPort>}`); the provisioner's file is not
among the source files, only its test is. -/
structure NetworkSettings where
  IpAddress : String
  IpPrefixLen : Nat
  Gateway : String
  PortMapping : List (String × String)
  deriving DecidableEq, Repr

/-- Modelled from the spec: what status collection reads (§4.2): the ids that
`ps -q` lists, the records of the Unit Store, the settings `inspect` reports
for an id, and the configured service port. -/
structure DockerWorld where
  running : List String
  store : List provision.Unit
  inspect : String → NetworkSettings
  port : String

/-- Modelled from the spec: the lookup of a Unit record by name (§2: the Unit
Store is keyed by unit name). -/
def findUnit (store : List provision.Unit) (name : String) : Option provision.Unit :=
  store.find? (fun u => u.Name == name)

/-- Modelled from the spec: the service-port check of §4.2, "the mapping for
the configured service port is present". -/
def portMapped (w : DockerWorld) (ns : NetworkSettings) : Bool :=
  ns.PortMapping.any (fun e => e.1 == w.port)

/-- Modelled from the spec: the pass of §4.2 over the running ids; an id
without a record is ignored, a unit with a record gets the inspected IP
address and the status `Started` or `Installing`. -/
def collectLoop (w : DockerWorld) : List String → List provision.Unit → List provision.Unit
  | [], units => units
  | id :: rest, units =>
    match findUnit w.store id with
    | none => collectLoop w rest units
    | some u =>
      let ns := w.inspect id
      let status :=
        if portMapped w ns then provision.Status.StatusStarted
        else provision.Status.StatusInstalling
      collectLoop w rest (units ++ [{ u with Ip := ns.IpAddress, Status := some status }])

/-- Modelled from the spec: `CollectStatus` (§4.1, §4.2), the units of the
pass and no error. -/
def CollectStatus (w : DockerWorld) : List provision.Unit × Option Err :=
  (collectLoop w w.running [], none)

/-- The fixture of `TestCollectStatus`: three running ids, records for the
first two, and a mapping for the service port in the first container only. -/
def testCollectStatusWorld : DockerWorld where
  running := ["9930c24f1c5f", "9930c24f1c4f", "9930c24f1c3f"]
  store :=
    [ { Name := "9930c24f1c5f", AppName := "ashamed", Type_ := "python", Machine := 0, Ip := "",
        InstanceId := "", Status := none },
      { Name := "9930c24f1c4f", AppName := "make-up", Type_ := "python", Machine := 0, Ip := "",
        InstanceId := "", Status := none } ]
  inspect := fun id =>
    if id = "9930c24f1c5f" then
      { IpAddress := "127.0.0.1", IpPrefixLen := 8, Gateway := "10.65.41.1",
        PortMapping := [("8888", "90293")] }
    else
      { IpAddress := "127.0.0.1", IpPrefixLen := 8, Gateway := "10.65.41.1",
        PortMapping := [("8889", "90294")] }
  port := "8888"

end docker

/-! # Theorems -/

/-! ## elbInstanceHealer: checkInstances -/

theorem appendMatching_eq (instances unhealthy : List elbInstance) :
    appendMatching instances unhealthy = unhealthy ++ instances.filter matchesTriad := by
  induction instances generalizing unhealthy with
  | nil => simp [appendMatching]
  | cons i rest ih =>
    rw [appendMatching, ih]
    by_cases h : matchesTriad i = true <;> simp [h, List.filter_cons]

theorem matchesTriad_iff (i : elbInstance) :
    matchesTriad i = true ↔
      i.description =
          "Instance has failed at least the UnhealthyThreshold number of health checks consecutively."
        ∧ i.state = "OutOfService" ∧ i.reasonCode = "Instance" := by
  simp [matchesTriad, unhealthyDescription, and_assoc]

theorem checkLoop_ok (w : ElbWorld) (states : String → List InstanceState) (lbs : List String)
    (h : ∀ lb ∈ lbs, w.DescribeInstanceHealth lb = .ok (states lb)) (unhealthy : List elbInstance) :
    (checkLoop w lbs unhealthy).1 =
      .ok (unhealthy ++
        (lbs.flatMap (fun lb => (states lb).map (instanceOf lb))).filter matchesTriad) := by
  induction lbs generalizing unhealthy with
  | nil => simp [checkLoop]
  | cons lb rest ih =>
    have h1 := h lb (List.mem_cons_self _ _)
    have h2 : ∀ l ∈ rest, w.DescribeInstanceHealth l = .ok (states l) :=
      fun l hl => h l (List.mem_cons_of_mem _ hl)
    simp only [checkLoop, describeInstancesHealth, h1]
    rw [ih h2, appendMatching_eq]
    simp [List.flatMap_cons, List.filter_append, List.append_assoc]

/-- C1: with load-balancer integration enabled and every describe call
succeeding, `checkInstances` returns, in report order across the described
load balancers, exactly the reported instances whose description, state and
reason code are the fixed triad; every returned instance has all three. -/
theorem checkInstances_returns_exactly_the_triad (w : ElbWorld) (names : List String)
    (descs : List LoadBalancerDescription) (states : String → List InstanceState)
    (henabled : w.config.GetBool "juju:use-elb" = .ok true)
    (hlbs : w.DescribeLoadBalancers names = .ok descs)
    (hhealth : ∀ d ∈ descs, w.DescribeInstanceHealth d.LoadBalancerName =
      .ok (states d.LoadBalancerName)) :
    (checkInstances w names).1 =
      .ok ((descs.flatMap (fun d =>
            (states d.LoadBalancerName).map (instanceOf d.LoadBalancerName))).filter
          (fun i => decide (i.description =
            "Instance has failed at least the UnhealthyThreshold number of health checks consecutively."
            ∧ i.state = "OutOfService" ∧ i.reasonCode = "Instance")))
    ∧ ∀ r, (checkInstances w names).1 = .ok r → ∀ i ∈ r,
        i.description =
          "Instance has failed at least the UnhealthyThreshold number of health checks consecutively."
        ∧ i.state = "OutOfService" ∧ i.reasonCode = "Instance" := by
  have hfilter : (fun i : elbInstance => decide (i.description =
            "Instance has failed at least the UnhealthyThreshold number of health checks consecutively."
            ∧ i.state = "OutOfService" ∧ i.reasonCode = "Instance")) = matchesTriad := by
    funext i
    rw [Bool.eq_iff_iff, matchesTriad_iff]
    simp
  have hmain : (checkInstances w names).1 =
      .ok ((descs.flatMap (fun d =>
            (states d.LoadBalancerName).map (instanceOf d.LoadBalancerName))).filter
          matchesTriad) := by
    have hl : ∀ lb ∈ descs.map (fun d => d.LoadBalancerName),
        w.DescribeInstanceHealth lb = .ok (states lb) := by
      intro lb hlb
      obtain ⟨d, hd, rfl⟩ := List.mem_map.1 hlb
      exact hhealth d hd
    simp only [checkInstances, getBoolOrFalse, henabled, describeLoadBalancers, hlbs]
    simp [checkLoop_ok w states _ hl, List.flatMap_map]
  refine ⟨by rw [hfilter]; exact hmain, ?_⟩
  intro r hr i hi
  rw [hmain] at hr
  injection hr with hr
  subst hr
  exact (matchesTriad_iff i).1 (List.mem_filter.1 hi).2

/-- Witness of C1 on the sample world. -/
theorem checkInstances_returns_exactly_the_triad_witness :
    (checkInstances demoElbWorld ["myapp"]).1 =
      .ok (([LoadBalancerDescription.mk "myapp"].flatMap (fun d =>
            (demoStates d.LoadBalancerName).map (instanceOf d.LoadBalancerName))).filter
          (fun i => decide (i.description =
            "Instance has failed at least the UnhealthyThreshold number of health checks consecutively."
            ∧ i.state = "OutOfService" ∧ i.reasonCode = "Instance")))
    ∧ ∀ r, (checkInstances demoElbWorld ["myapp"]).1 = .ok r → ∀ i ∈ r,
        i.description =
          "Instance has failed at least the UnhealthyThreshold number of health checks consecutively."
        ∧ i.state = "OutOfService" ∧ i.reasonCode = "Instance" :=
  checkInstances_returns_exactly_the_triad demoElbWorld ["myapp"]
    [LoadBalancerDescription.mk "myapp"] demoStates rfl rfl (fun _ _ => rfl)

/-! ## elbInstanceHealer: Heal -/

theorem observedInstances_append (t u : List ElbCall) :
    observedInstances (t ++ u) = observedInstances t ++ observedInstances u := by
  simp [observedInstances]

theorem unitCalls_append (t u : List ElbCall) :
    unitCalls (t ++ u) = unitCalls t ++ unitCalls u := by
  simp [unitCalls]

/-- The loop of `checkInstances` makes no unit call, and when every describe
call succeeds it returns the matching ones among the instances it observed. -/
theorem checkLoop_trace (w : ElbWorld) (states : String → List InstanceState)
    (hH : ∀ lb, w.DescribeInstanceHealth lb = .ok (states lb))
    (lbs : List String) (unhealthy : List elbInstance) :
    (checkLoop w lbs unhealthy).1 =
        .ok (unhealthy ++ (observedInstances (checkLoop w lbs unhealthy).2).filter matchesTriad)
      ∧ observedInstances (checkLoop w lbs unhealthy).2 =
        lbs.flatMap (fun lb => (states lb).map (instanceOf lb))
      ∧ unitCalls (checkLoop w lbs unhealthy).2 = [] := by
  induction lbs generalizing unhealthy with
  | nil => simp [checkLoop, observedInstances, unitCalls]
  | cons lb rest ih =>
    obtain ⟨h1, h2, h3⟩ := ih (appendMatching (List.map (instanceOf lb) (states lb)) unhealthy)
    simp only [checkLoop, describeInstancesHealth, hH lb]
    refine ⟨?_, ?_, ?_⟩
    · rw [h1, appendMatching_eq]
      simp [observedInstances, ElbCall.reported, List.append_assoc]
    · rw [observedInstances_append, h2]
      simp [observedInstances, ElbCall.reported]
    · rw [unitCalls_append, h3]
      simp [unitCalls, ElbCall.isUnitCall]

/-- When no `RemoveUnit` and no `AddUnits` fails, the loop of `Heal` replaces
every instance it is given. -/
theorem healInstances_all_succeed (w : ElbWorld) (apps : AppMap)
    (hR : ∀ a unitId, w.RemoveUnit a unitId = none) (hA : ∀ a n, w.AddUnits a n = none)
    (instances : List elbInstance) :
    healInstances w apps instances =
      (none, instances.flatMap (fun i =>
        [ElbCall.RemoveUnit (apps.get i.lb) i.id, ElbCall.AddUnits (apps.get i.lb) 1])) := by
  induction instances with
  | nil => simp [healInstances]
  | cons i rest ih => simp [healInstances, hR, hA, ih]

theorem unitCalls_replacements (apps : AppMap) (instances : List elbInstance) :
    unitCalls (instances.flatMap (fun i =>
        [ElbCall.RemoveUnit (apps.get i.lb) i.id, ElbCall.AddUnits (apps.get i.lb) 1])) =
      instances.flatMap (fun i =>
        [ElbCall.RemoveUnit (apps.get i.lb) i.id, ElbCall.AddUnits (apps.get i.lb) 1]) := by
  induction instances with
  | nil => simp [unitCalls]
  | cons i rest ih =>
    rw [List.flatMap_cons, unitCalls_append, ih]
    simp [unitCalls, ElbCall.isUnitCall]

theorem observedInstances_replacements (apps : AppMap) (instances : List elbInstance) :
    observedInstances (instances.flatMap (fun i =>
        [ElbCall.RemoveUnit (apps.get i.lb) i.id, ElbCall.AddUnits (apps.get i.lb) 1])) = [] := by
  induction instances with
  | nil => simp [observedInstances]
  | cons i rest ih =>
    rw [List.flatMap_cons, observedInstances_append, ih]
    simp [observedInstances, ElbCall.reported]

/-- The result and the trace of `checkInstances` when every describe call
succeeds, whatever the configuration says. -/
theorem checkInstances_trace (w : ElbWorld) (names : List String)
    (descs : List String → List LoadBalancerDescription) (states : String → List InstanceState)
    (hL : ∀ ns, w.DescribeLoadBalancers ns = .ok (descs ns))
    (hH : ∀ lb, w.DescribeInstanceHealth lb = .ok (states lb)) :
    (checkInstances w names).1 =
        .ok ((observedInstances (checkInstances w names).2).filter matchesTriad)
      ∧ unitCalls (checkInstances w names).2 = []
      ∧ (w.config.GetBool "juju:use-elb" = .ok true →
          observedInstances (checkInstances w names).2 =
            (descs names).flatMap (fun d =>
              (states d.LoadBalancerName).map (instanceOf d.LoadBalancerName))) := by
  by_cases hen : getBoolOrFalse w.config "juju:use-elb" = true
  · obtain ⟨h1, h2, h3⟩ := checkLoop_trace w states hH
      ((descs names).map (fun d => d.LoadBalancerName)) []
    simp only [checkInstances, hen, describeLoadBalancers, hL names]
    refine ⟨?_, ?_, ?_⟩
    · simpa [observedInstances_append, observedInstances, ElbCall.reported] using h1
    · simpa [unitCalls_append, unitCalls, ElbCall.isUnitCall] using h3
    · intro _
      simpa [observedInstances_append, observedInstances, ElbCall.reported, List.flatMap_map]
        using h2
  · refine ⟨?_, ?_, ?_⟩
    · simp [checkInstances, hen, observedInstances]
    · simp [checkInstances, hen, unitCalls]
    · intro h
      simp [getBoolOrFalse, h] at hen

theorem triad_filter_eq :
    (fun i : elbInstance => decide (i.description =
        "Instance has failed at least the UnhealthyThreshold number of health checks consecutively."
        ∧ i.state = "OutOfService" ∧ i.reasonCode = "Instance")) = matchesTriad := by
  funext i
  rw [Bool.eq_iff_iff, matchesTriad_iff]
  simp

/-- C2, as the code has it: when every describe call succeeds and `RemoveUnit`
and `AddUnits` succeed, `Heal` returns nil and its unit calls are exactly
`RemoveUnit(instance id)` followed by `AddUnits(1)`, on the app keyed by the
instance's load-balancer name, once for each instance of the obtained health
reports that matches the triad, in report order, and none for any other
instance; with integration enabled and some app unhealthy the obtained
reports are those of every described load balancer. -/
theorem elbHeal_replaces_exactly_the_matching (w : ElbWorld)
    (descs : List String → List LoadBalancerDescription) (states : String → List InstanceState)
    (hL : ∀ ns, w.DescribeLoadBalancers ns = .ok (descs ns))
    (hH : ∀ lb, w.DescribeInstanceHealth lb = .ok (states lb))
    (hR : ∀ a unitId, w.RemoveUnit a unitId = none) (hA : ∀ a n, w.AddUnits a n = none) :
    (elbInstanceHealer.Heal w).1 = none
    ∧ unitCalls (elbInstanceHealer.Heal w).2 =
        ((observedInstances (elbInstanceHealer.Heal w).2).filter
            (fun i => decide (i.description =
              "Instance has failed at least the UnhealthyThreshold number of health checks consecutively."
              ∧ i.state = "OutOfService" ∧ i.reasonCode = "Instance"))).flatMap
          (fun i =>
            [ElbCall.RemoveUnit ((getUnhealthyApps w).get i.lb) i.id,
             ElbCall.AddUnits ((getUnhealthyApps w).get i.lb) 1])
    ∧ (w.config.GetBool "juju:use-elb" = .ok true → getUnhealthyApps w ≠ [] →
        observedInstances (elbInstanceHealer.Heal w).2 =
          (descs (w.rangeOrder (getUnhealthyApps w).keys)).flatMap (fun d =>
            (states d.LoadBalancerName).map (instanceOf d.LoadBalancerName))) := by
  rw [triad_filter_eq]
  by_cases hempty : (getUnhealthyApps w).length = 0
  · have hnil : getUnhealthyApps w = [] := List.length_eq_zero.1 hempty
    simp [elbInstanceHealer.Heal, hempty, unitCalls, observedInstances, hnil]
  · obtain ⟨h1, h2, h3⟩ :=
      checkInstances_trace w (w.rangeOrder (getUnhealthyApps w).keys) descs states hL hH
    rcases hci : checkInstances w (w.rangeOrder (getUnhealthyApps w).keys) with ⟨r, t⟩
    rw [hci] at h1 h2 h3
    simp only at h1 h2 h3
    subst h1
    simp only [elbInstanceHealer.Heal, hempty, if_false, hci]
    by_cases hlen : (List.filter matchesTriad (observedInstances t)).length > 0
    · rw [if_pos hlen, healInstances_all_succeed w _ hR hA]
      refine ⟨rfl, ?_, ?_⟩
      · simp only [unitCalls_append, observedInstances_append, h2, unitCalls_replacements,
          observedInstances_replacements, List.nil_append, List.append_nil]
      · intro he _
        simp only [observedInstances_append, observedInstances_replacements, List.append_nil]
        exact h3 he
    · have hnil : List.filter matchesTriad (observedInstances t) = [] := by
        cases hf : List.filter matchesTriad (observedInstances t) with
        | nil => rfl
        | cons a l => rw [hf] at hlen; simp at hlen
      rw [if_neg hlen]
      refine ⟨rfl, ?_, ?_⟩
      · simp [h2, hnil]
      · intro he _
        exact h3 he

/-- Witness of the amended C2 on the sample world, whose describe calls and
unit calls all succeed. -/
theorem elbHeal_replaces_exactly_the_matching_witness :
    (elbInstanceHealer.Heal demoElbWorld).1 = none
    ∧ unitCalls (elbInstanceHealer.Heal demoElbWorld).2 =
        ((observedInstances (elbInstanceHealer.Heal demoElbWorld).2).filter
            (fun i => decide (i.description =
              "Instance has failed at least the UnhealthyThreshold number of health checks consecutively."
              ∧ i.state = "OutOfService" ∧ i.reasonCode = "Instance"))).flatMap
          (fun i =>
            [ElbCall.RemoveUnit ((getUnhealthyApps demoElbWorld).get i.lb) i.id,
             ElbCall.AddUnits ((getUnhealthyApps demoElbWorld).get i.lb) 1])
    ∧ (demoElbWorld.config.GetBool "juju:use-elb" = .ok true → getUnhealthyApps demoElbWorld ≠ [] →
        observedInstances (elbInstanceHealer.Heal demoElbWorld).2 =
          ((fun ns : List String => ns.map LoadBalancerDescription.mk)
              (demoElbWorld.rangeOrder (getUnhealthyApps demoElbWorld).keys)).flatMap (fun d =>
            (demoStates d.LoadBalancerName).map (instanceOf d.LoadBalancerName))) :=
  elbHeal_replaces_exactly_the_matching demoElbWorld
    (fun ns => ns.map LoadBalancerDescription.mk) demoStates
    (fun _ => rfl) (fun _ => rfl) (fun _ _ => rfl) (fun _ _ => rfl)

/-- C2 fails as stated: in the world with the unhealthy apps `myapp` and
`broken`, whose `RemoveUnit` and `AddUnits` succeed, the health report of
`myapp` holds the instance `i-0800` that matches the triad, the health report
of `broken` cannot be obtained, and `Heal` returns nil without any
`RemoveUnit` or `AddUnits` call. -/
theorem elbHeal_failed_describe_replaces_nothing :
    (∀ a unitId, partialFailureElbWorld.RemoveUnit a unitId = none)
    ∧ (∀ a n, partialFailureElbWorld.AddUnits a n = none)
    ∧ (elbInstanceHealer.Heal partialFailureElbWorld).2 =
        [ElbCall.DescribeLoadBalancers ["myapp", "broken"],
         ElbCall.DescribeInstanceHealth "myapp" (.ok (demoStates "myapp")),
         ElbCall.DescribeInstanceHealth "broken" (.error "Throttling")]
    ∧ instanceOf "myapp" failing0800 ∈
        observedInstances (elbInstanceHealer.Heal partialFailureElbWorld).2
    ∧ matchesTriad (instanceOf "myapp" failing0800) = true
    ∧ unitCalls (elbInstanceHealer.Heal partialFailureElbWorld).2 = []
    ∧ (elbInstanceHealer.Heal partialFailureElbWorld).1 = none := by
  have htrace : (elbInstanceHealer.Heal partialFailureElbWorld).2 =
        [ElbCall.DescribeLoadBalancers ["myapp", "broken"],
         ElbCall.DescribeInstanceHealth "myapp" (.ok (demoStates "myapp")),
         ElbCall.DescribeInstanceHealth "broken" (.error "Throttling")] := rfl
  refine ⟨fun _ _ => rfl, fun _ _ => rfl, htrace, ?_, rfl, ?_, rfl⟩
  · rw [htrace]
    decide
  · rw [htrace]
    rfl

/-- C5: when `juju:use-elb` is false or absent, `checkInstances` returns no
instance and no error without any call, and `Heal` returns nil having made
no call at all, neither to the load-balancer API nor `RemoveUnit` nor
`AddUnits`, for every state of the app store. -/
theorem elbHeal_noop_when_disabled (w : ElbWorld)
    (hoff : w.config.GetBool "juju:use-elb" = .ok false
      ∨ ∃ e, w.config.GetBool "juju:use-elb" = .error e) :
    (∀ names, checkInstances w names = (.ok [], []))
    ∧ (elbInstanceHealer.Heal w).1 = none
    ∧ (elbInstanceHealer.Heal w).2 = [] := by
  have hb : getBoolOrFalse w.config "juju:use-elb" = false := by
    rcases hoff with h | ⟨e, h⟩ <;> simp [getBoolOrFalse, h]
  have hc : ∀ names, checkInstances w names = (.ok [], []) := by
    intro names
    simp [checkInstances, hb]
  refine ⟨hc, ?_, ?_⟩ <;>
    by_cases hempty : (getUnhealthyApps w).length = 0 <;>
    simp [elbInstanceHealer.Heal, hempty, hc]

/-- Witness of C5: the sample world with the switch off has an app with a
unit that is down, and `Heal` does nothing. -/
theorem elbHeal_noop_when_disabled_witness :
    (∀ names, checkInstances disabledElbWorld names = (.ok [], []))
    ∧ (elbInstanceHealer.Heal disabledElbWorld).1 = none
    ∧ (elbInstanceHealer.Heal disabledElbWorld).2 = [] :=
  elbHeal_noop_when_disabled disabledElbWorld (Or.inl rfl)

/-! ## elbInstanceHealer: the load balancers that are looked up -/

theorem hasUnhealthyUnit_iff (us : List provision.Unit) :
    hasUnhealthyUnit us = true ↔
      ∃ u ∈ us, u.Status = some provision.Status.StatusDown ∨
        u.Status = some provision.Status.StatusError := by
  induction us with
  | nil => simp [hasUnhealthyUnit]
  | cons u rest ih =>
    by_cases h : u.Status = some provision.Status.StatusDown ∨
        u.Status = some provision.Status.StatusError
    · simp [hasUnhealthyUnit, h]
    · simp [hasUnhealthyUnit, h, ih]

theorem AppMap.keys_insert (m : AppMap) (k : String) (v : App) :
    (m.insert k v).keys = if k ∈ m.keys then m.keys else m.keys ++ [k] := by
  have hany : (m.any (fun e => e.1 == k)) = true ↔ k ∈ m.keys := by
    simp only [AppMap.keys, List.any_eq_true, List.mem_map, beq_iff_eq]
  by_cases hk : k ∈ m.keys
  · have h1 := hany.2 hk
    rw [if_pos hk]
    simp only [AppMap.insert, h1, if_true]
    simp only [AppMap.keys, List.map_map]
    apply List.map_congr_left
    intro e _
    by_cases hek : e.1 = k <;> simp [hek]
  · have h1 : ¬ (m.any (fun e => e.1 == k)) = true := fun h => hk (hany.1 h)
    rw [if_neg hk]
    simp [AppMap.insert, h1, AppMap.keys]

theorem collectUnhealthy_keys (all : List App) (m : AppMap) (hm : m.keys.Nodup) :
    (collectUnhealthy all m).keys.Nodup ∧
      ∀ n, n ∈ (collectUnhealthy all m).keys ↔
        n ∈ m.keys ∨ ∃ a ∈ all, a.Name = n ∧ hasUnhealthyUnit a.Units = true := by
  induction all generalizing m with
  | nil => simp [collectUnhealthy, hm]
  | cons a rest ih =>
    rw [collectUnhealthy]
    by_cases hu : hasUnhealthyUnit a.Units = true
    · have hk : (m.insert a.Name a).keys.Nodup := by
        rw [AppMap.keys_insert]
        by_cases hin : a.Name ∈ m.keys
        · simpa [hin] using hm
        · simp only [hin, if_false]
          exact List.Nodup.append hm (List.nodup_singleton _) (by simpa using hin)
      obtain ⟨h1, h2⟩ := ih (m.insert a.Name a) hk
      rw [if_pos hu]
      refine ⟨h1, fun n => ?_⟩
      rw [h2, AppMap.keys_insert]
      by_cases hin : a.Name ∈ m.keys
      · simp only [hin, if_true, List.mem_cons, exists_eq_or_imp]
        constructor
        · rintro (h | h)
          · exact Or.inl h
          · exact Or.inr (Or.inr h)
        · rintro (h | ⟨rfl, -⟩ | h)
          · exact Or.inl h
          · exact Or.inl hin
          · exact Or.inr h
      · simp only [hin, if_false, List.mem_append, List.mem_singleton, List.mem_cons,
          exists_eq_or_imp, List.not_mem_nil, or_false]
        constructor
        · rintro ((h | rfl) | h)
          · exact Or.inl h
          · exact Or.inr (Or.inl ⟨rfl, hu⟩)
          · exact Or.inr (Or.inr h)
        · rintro (h | ⟨rfl, -⟩ | h)
          · exact Or.inl (Or.inl h)
          · exact Or.inl (Or.inr rfl)
          · exact Or.inr h
    · obtain ⟨h1, h2⟩ := ih m hm
      rw [if_neg hu]
      refine ⟨h1, fun n => ?_⟩
      rw [h2]
      simp only [List.mem_cons, exists_eq_or_imp]
      constructor
      · rintro (h | h)
        · exact Or.inl h
        · exact Or.inr (Or.inr h)
      · rintro (h | ⟨-, h⟩ | h)
        · exact Or.inl h
        · exact absurd h hu
        · exact Or.inr h

theorem lookups_append (t u : List ElbCall) : lookups (t ++ u) = lookups t ++ lookups u := by
  induction t with
  | nil => simp [lookups]
  | cons c rest ih => cases c <;> simp [lookups, ih]

theorem lookups_checkLoop (w : ElbWorld) (lbs : List String) (unhealthy : List elbInstance) :
    lookups (checkLoop w lbs unhealthy).2 = [] := by
  induction lbs generalizing unhealthy with
  | nil => simp [checkLoop, lookups]
  | cons lb rest ih =>
    cases h : w.DescribeInstanceHealth lb with
    | error e => simp [checkLoop, describeInstancesHealth, h, lookups]
    | ok states => simp [checkLoop, describeInstancesHealth, h, lookups, ih]

theorem lookups_healInstances (w : ElbWorld) (apps : AppMap) (instances : List elbInstance) :
    lookups (healInstances w apps instances).2 = [] := by
  induction instances with
  | nil => simp [healInstances, lookups]
  | cons i rest ih =>
    cases hr : w.RemoveUnit (apps.get i.lb) i.id with
    | some e => simp [healInstances, hr, lookups]
    | none =>
      cases ha : w.AddUnits (apps.get i.lb) 1 with
      | some e => simp [healInstances, hr, ha, lookups]
      | none => simp [healInstances, hr, ha, lookups, ih]

theorem lookups_checkInstances (w : ElbWorld) (names : List String) :
    lookups (checkInstances w names).2 =
      if getBoolOrFalse w.config "juju:use-elb" = true then [names] else [] := by
  by_cases hen : getBoolOrFalse w.config "juju:use-elb" = true
  · cases h : w.DescribeLoadBalancers names with
    | error e => simp [checkInstances, hen, describeLoadBalancers, h, lookups]
    | ok descs =>
      simp [checkInstances, hen, describeLoadBalancers, h, lookups, lookups_checkLoop]
  · simp [checkInstances, hen, lookups]

theorem lookups_Heal (w : ElbWorld) :
    lookups (elbInstanceHealer.Heal w).2 =
      if getBoolOrFalse w.config "juju:use-elb" = true ∧ getUnhealthyApps w ≠ [] then
        [w.rangeOrder (getUnhealthyApps w).keys]
      else [] := by
  by_cases hempty : (getUnhealthyApps w).length = 0
  · have hnil : getUnhealthyApps w = [] := List.length_eq_zero.1 hempty
    simp [elbInstanceHealer.Heal, hempty, hnil, lookups]
  · have hne : getUnhealthyApps w ≠ [] := fun h => hempty (by simp [h])
    have hl := lookups_checkInstances w (w.rangeOrder (getUnhealthyApps w).keys)
    rcases hci : checkInstances w (w.rangeOrder (getUnhealthyApps w).keys) with ⟨r, t⟩
    rw [hci] at hl
    simp only at hl
    simp only [elbInstanceHealer.Heal, hempty, if_false, hci, hne, ne_eq, not_false_eq_true,
      and_true]
    cases r with
    | error e => exact hl
    | ok instances =>
      by_cases hlen : instances.length > 0
      · simp only [hlen, if_true, lookups_append, lookups_healInstances, List.append_nil]
        exact hl
      · simp only [hlen, if_false]
        exact hl

theorem getUnhealthyApps_keys (w : ElbWorld) (all : List App)
    (hconn : w.connErr = none) (hfind : w.findAll = .ok all) :
    (getUnhealthyApps w).keys.Nodup ∧
      ∀ n, n ∈ (getUnhealthyApps w).keys ↔
        ∃ a ∈ all, a.Name = n ∧ ∃ u ∈ a.Units,
          u.Status = some provision.Status.StatusDown ∨
            u.Status = some provision.Status.StatusError := by
  have hg : getUnhealthyApps w = collectUnhealthy all [] := by
    simp [getUnhealthyApps, hconn, hfind]
  obtain ⟨h1, h2⟩ := collectUnhealthy_keys all [] (by simp [AppMap.keys])
  rw [hg]
  refine ⟨h1, fun n => ?_⟩
  rw [h2]
  simp [AppMap.keys, hasUnhealthyUnit_iff]

/-- C6: for every list of stored apps, every name list `Heal` passes to the
load-balancer lookup holds exactly the names of the apps with at least one
unit whose status is Down or Error, each name once; there is at most one
lookup, none at all (indeed no call at all) when no app qualifies, and
exactly one when an app qualifies and integration is enabled. -/
theorem elbHeal_looks_up_exactly_unhealthy_apps (w : ElbWorld) (all : List App)
    (hconn : w.connErr = none) (hfind : w.findAll = .ok all)
    (hperm : ∀ keys, (w.rangeOrder keys).Perm keys) :
    (∀ names ∈ lookups (elbInstanceHealer.Heal w).2,
        names.Nodup ∧ ∀ n, n ∈ names ↔
          ∃ a ∈ all, a.Name = n ∧ ∃ u ∈ a.Units,
            u.Status = some provision.Status.StatusDown ∨
              u.Status = some provision.Status.StatusError)
    ∧ (lookups (elbInstanceHealer.Heal w).2).length ≤ 1
    ∧ ((∀ a ∈ all, ∀ u ∈ a.Units,
          ¬ (u.Status = some provision.Status.StatusDown ∨
              u.Status = some provision.Status.StatusError)) →
        (elbInstanceHealer.Heal w).2 = [])
    ∧ (w.config.GetBool "juju:use-elb" = .ok true →
        (∃ a ∈ all, ∃ u ∈ a.Units,
          u.Status = some provision.Status.StatusDown ∨
            u.Status = some provision.Status.StatusError) →
        (lookups (elbInstanceHealer.Heal w).2).length = 1) := by
  obtain ⟨hnd, hmem⟩ := getUnhealthyApps_keys w all hconn hfind
  have hl := lookups_Heal w
  refine ⟨?_, ?_, ?_, ?_⟩
  · intro names hnames
    rw [hl] at hnames
    split at hnames
    · rw [List.mem_singleton] at hnames
      subst hnames
      refine ⟨(hperm _).nodup_iff.2 hnd, fun n => ?_⟩
      rw [(hperm _).mem_iff, hmem]
    · simp at hnames
  · rw [hl]
    split <;> simp
  · intro hnone
    have hkeys : (getUnhealthyApps w).keys = [] := by
      apply List.eq_nil_iff_forall_not_mem.2
      intro n hn
      obtain ⟨a, ha, -, u, hu, hs⟩ := (hmem n).1 hn
      exact hnone a ha u hu hs
    have hnil : getUnhealthyApps w = [] := by
      simpa [AppMap.keys] using hkeys
    simp [elbInstanceHealer.Heal, hnil]
  · intro hen ⟨a, ha, u, hu, hs⟩
    have hin : a.Name ∈ (getUnhealthyApps w).keys := (hmem a.Name).2 ⟨a, ha, rfl, u, hu, hs⟩
    have hne : getUnhealthyApps w ≠ [] := by
      intro h
      rw [h] at hin
      simp [AppMap.keys] at hin
    have hb : getBoolOrFalse w.config "juju:use-elb" = true := by
      simp [getBoolOrFalse, hen]
    rw [hl, if_pos ⟨hb, hne⟩]
    rfl

/-- Witness of C6 on the sample world, whose store holds one app with a unit
that is down and one healthy app. -/
theorem elbHeal_looks_up_exactly_unhealthy_apps_witness :
    (∀ names ∈ lookups (elbInstanceHealer.Heal demoElbWorld).2,
        names.Nodup ∧ ∀ n, n ∈ names ↔
          ∃ a ∈ demoApps, a.Name = n ∧ ∃ u ∈ a.Units,
            u.Status = some provision.Status.StatusDown ∨
              u.Status = some provision.Status.StatusError)
    ∧ (lookups (elbInstanceHealer.Heal demoElbWorld).2).length ≤ 1
    ∧ ((∀ a ∈ demoApps, ∀ u ∈ a.Units,
          ¬ (u.Status = some provision.Status.StatusDown ∨
              u.Status = some provision.Status.StatusError)) →
        (elbInstanceHealer.Heal demoElbWorld).2 = [])
    ∧ (demoElbWorld.config.GetBool "juju:use-elb" = .ok true →
        (∃ a ∈ demoApps, ∃ u ∈ a.Units,
          u.Status = some provision.Status.StatusDown ∨
            u.Status = some provision.Status.StatusError) →
        (lookups (elbInstanceHealer.Heal demoElbWorld).2).length = 1) :=
  elbHeal_looks_up_exactly_unhealthy_apps demoElbWorld demoApps rfl rfl
    (fun keys => List.Perm.refl keys)

/-! ## elbInstanceHealer: failures of RemoveUnit and AddUnits -/

theorem healInstances_attempts (w : ElbWorld) (apps : AppMap) (instances : List elbInstance) :
    (healInstances w apps instances).2.filter ElbCall.isRemoveUnit =
        (instances.takeWhile (replaceSucceeds w apps) ++
            (instances.dropWhile (replaceSucceeds w apps)).take 1).map
          (fun i => ElbCall.RemoveUnit (apps.get i.lb) i.id)
      ∧ ((healInstances w apps instances).1 = none ↔
          ∀ i ∈ instances, replaceSucceeds w apps i = true) := by
  induction instances with
  | nil => simp [healInstances]
  | cons i rest ih =>
    cases hr : w.RemoveUnit (apps.get i.lb) i.id with
    | some e =>
      have hs : replaceSucceeds w apps i = false := by simp [replaceSucceeds, hr]
      simp [healInstances, hr, hs, List.takeWhile_cons, List.dropWhile_cons,
        ElbCall.isRemoveUnit]
    | none =>
      cases ha : w.AddUnits (apps.get i.lb) 1 with
      | some e =>
        have hs : replaceSucceeds w apps i = false := by simp [replaceSucceeds, hr, ha]
        simp [healInstances, hr, ha, hs, List.takeWhile_cons, List.dropWhile_cons,
          ElbCall.isRemoveUnit]
      | none =>
        have hs : replaceSucceeds w apps i = true := by simp [replaceSucceeds, hr, ha]
        obtain ⟨h1, h2⟩ := ih
        refine ⟨?_, ?_⟩
        · simp only [healInstances, hr, ha, List.takeWhile_cons, List.dropWhile_cons, hs,
            if_true, List.cons_append, List.map_cons]
          rw [← h1]
          simp [List.filter_cons, ElbCall.isRemoveUnit]
        · simp only [healInstances, hr, ha, List.mem_cons, forall_eq_or_imp, hs, true_and]
          exact h2

theorem removeCalls_checkLoop (w : ElbWorld) (lbs : List String) (unhealthy : List elbInstance) :
    (checkLoop w lbs unhealthy).2.filter ElbCall.isRemoveUnit = [] := by
  induction lbs generalizing unhealthy with
  | nil => simp [checkLoop]
  | cons lb rest ih =>
    cases h : w.DescribeInstanceHealth lb with
    | error e => simp [checkLoop, describeInstancesHealth, h, ElbCall.isRemoveUnit]
    | ok states => simp [checkLoop, describeInstancesHealth, h, ElbCall.isRemoveUnit, ih]

theorem removeCalls_checkInstances (w : ElbWorld) (names : List String) :
    (checkInstances w names).2.filter ElbCall.isRemoveUnit = [] := by
  by_cases hen : getBoolOrFalse w.config "juju:use-elb" = true
  · cases h : w.DescribeLoadBalancers names with
    | error e => simp [checkInstances, hen, describeLoadBalancers, h, ElbCall.isRemoveUnit]
    | ok descs =>
      simp [checkInstances, hen, describeLoadBalancers, h, ElbCall.isRemoveUnit,
        removeCalls_checkLoop]
  · simp [checkInstances, hen]

theorem healInstances_error (w : ElbWorld) (apps : AppMap) (instances : List elbInstance) :
    (healInstances w apps instances).1 =
      ((instances.dropWhile (replaceSucceeds w apps)).head?).bind (replaceError w apps) := by
  induction instances with
  | nil => simp [healInstances]
  | cons i rest ih =>
    cases hr : w.RemoveUnit (apps.get i.lb) i.id with
    | some e =>
      have hs : replaceSucceeds w apps i = false := by simp [replaceSucceeds, hr]
      simp [healInstances, hr, hs, List.dropWhile_cons, replaceError]
    | none =>
      cases ha : w.AddUnits (apps.get i.lb) 1 with
      | some e =>
        have hs : replaceSucceeds w apps i = false := by simp [replaceSucceeds, hr, ha]
        simp [healInstances, hr, ha, hs, List.dropWhile_cons, replaceError]
      | none =>
        have hs : replaceSucceeds w apps i = true := by simp [replaceSucceeds, hr, ha]
        simp only [healInstances, hr, ha, List.dropWhile_cons, hs, if_true]
        exact ih

/-- C7, as the code has it: `Heal` handles the instances `checkInstances`
returned in order and stops at the first failure of `RemoveUnit` or
`AddUnits`; the instances up to and including the first one with a failing
call get a `RemoveUnit` attempt each, no later instance gets one, `Heal`
returns nil exactly when no call failed, and otherwise it returns the error
of the first failing call. -/
theorem elbHeal_stops_at_first_failure (w : ElbWorld) (r : List elbInstance)
    (t : List ElbCall) (hne : getUnhealthyApps w ≠ [])
    (hci : checkInstances w (w.rangeOrder (getUnhealthyApps w).keys) = (.ok r, t)) :
    (elbInstanceHealer.Heal w).2.filter ElbCall.isRemoveUnit =
        (r.takeWhile (replaceSucceeds w (getUnhealthyApps w)) ++
            (r.dropWhile (replaceSucceeds w (getUnhealthyApps w))).take 1).map
          (fun i => ElbCall.RemoveUnit ((getUnhealthyApps w).get i.lb) i.id)
      ∧ ((elbInstanceHealer.Heal w).1 = none ↔
          ∀ i ∈ r, replaceSucceeds w (getUnhealthyApps w) i = true)
      ∧ (elbInstanceHealer.Heal w).1 =
          ((r.dropWhile (replaceSucceeds w (getUnhealthyApps w))).head?).bind
            (replaceError w (getUnhealthyApps w)) := by
  have hempty : ¬ (getUnhealthyApps w).length = 0 := fun h => hne (List.length_eq_zero.1 h)
  have ht : t.filter ElbCall.isRemoveUnit = [] := by
    have := removeCalls_checkInstances w (w.rangeOrder (getUnhealthyApps w).keys)
    rwa [hci] at this
  obtain ⟨h1, h2⟩ := healInstances_attempts w (getUnhealthyApps w) r
  have h3 := healInstances_error w (getUnhealthyApps w) r
  simp only [elbInstanceHealer.Heal, hempty, if_false, hci]
  by_cases hlen : r.length > 0
  · rw [if_pos hlen]
    simp only [List.filter_append, ht, List.nil_append]
    exact ⟨h1, h2, h3⟩
  · have hnil : r = [] := by
      cases r with
      | nil => rfl
      | cons a l => simp at hlen
    subst hnil
    rw [if_neg hlen]
    simp [ht]

/-- Witness of the amended C7 on the world whose `RemoveUnit` fails for the
first of two matching instances. -/
theorem elbHeal_stops_at_first_failure_witness :
    (elbInstanceHealer.Heal failingElbWorld).2.filter ElbCall.isRemoveUnit =
        (([instanceOf "myapp" failing0800,
            instanceOf "myapp" failing0801] :
              List elbInstance).takeWhile
              (replaceSucceeds failingElbWorld (getUnhealthyApps failingElbWorld)) ++
            (([instanceOf "myapp" failing0800,
            instanceOf "myapp" failing0801] :
              List elbInstance).dropWhile
              (replaceSucceeds failingElbWorld (getUnhealthyApps failingElbWorld))).take 1).map
          (fun i => ElbCall.RemoveUnit ((getUnhealthyApps failingElbWorld).get i.lb) i.id)
      ∧ ((elbInstanceHealer.Heal failingElbWorld).1 = none ↔
          ∀ i ∈ ([instanceOf "myapp" failing0800,
                  instanceOf "myapp" failing0801] :
                List elbInstance),
            replaceSucceeds failingElbWorld (getUnhealthyApps failingElbWorld) i = true)
      ∧ (elbInstanceHealer.Heal failingElbWorld).1 =
          ((([instanceOf "myapp" failing0800,
              instanceOf "myapp" failing0801] :
                List elbInstance).dropWhile
              (replaceSucceeds failingElbWorld (getUnhealthyApps failingElbWorld))).head?).bind
            (replaceError failingElbWorld (getUnhealthyApps failingElbWorld)) :=
  elbHeal_stops_at_first_failure failingElbWorld _
    [ElbCall.DescribeLoadBalancers ["myapp"],
     ElbCall.DescribeInstanceHealth "myapp"
      (.ok [failing0800,
            failing0801])]
    (by decide) rfl

/-- C7 fails as stated: in the world whose health report for `myapp` holds
the two matching instances `i-0800` and `i-0801` and whose `RemoveUnit` fails
for `i-0800`, `Heal` returns that error after the one attempt and `i-0801`
gets no `RemoveUnit` attempt. -/
theorem elbHeal_failure_skips_later_instances :
    (checkInstances failingElbWorld ["myapp"]).1 =
        .ok [instanceOf "myapp" failing0800,
             instanceOf "myapp" failing0801]
    ∧ matchesTriad (instanceOf "myapp" failing0801) = true
    ∧ (elbInstanceHealer.Heal failingElbWorld).1 = some "exit status 1"
    ∧ (elbInstanceHealer.Heal failingElbWorld).2 =
        [ElbCall.DescribeLoadBalancers ["myapp"],
         ElbCall.DescribeInstanceHealth "myapp"
          (.ok [failing0800,
                failing0801]),
         ElbCall.RemoveUnit ((getUnhealthyApps failingElbWorld).get "myapp") "i-0800"]
    ∧ ∀ a, ElbCall.RemoveUnit a "i-0801" ∉ (elbInstanceHealer.Heal failingElbWorld).2 := by
  have htrace : (elbInstanceHealer.Heal failingElbWorld).2 =
        [ElbCall.DescribeLoadBalancers ["myapp"],
         ElbCall.DescribeInstanceHealth "myapp"
          (.ok [failing0800,
                failing0801]),
         ElbCall.RemoveUnit ((getUnhealthyApps failingElbWorld).get "myapp") "i-0800"] := rfl
  refine ⟨rfl, rfl, rfl, htrace, ?_⟩
  intro a ha
  rw [htrace] at ha
  simp at ha

/-! ## instanceUnitHealer and instanceMachineHealer -/

theorem splitAux_ne_nil (sep : List Char) (k : Nat) (cur cs : List Char) :
    strings.splitAux sep k cur cs ≠ [] := by
  induction cs generalizing k cur with
  | nil => simp [strings.splitAux]
  | cons c rest ih =>
    cases k with
    | zero =>
      by_cases h : sep.isPrefixOf (c :: rest) = true
      · simp [strings.splitAux, h]
      · simpa [strings.splitAux, h] using ih 0 (c :: cur)
    | succ k => simpa [strings.splitAux] using ih k cur

theorem intercalate_cons_cons (sep x y : List Char) (l : List (List Char)) :
    List.intercalate sep (x :: y :: l) = x ++ sep ++ List.intercalate sep (y :: l) := by
  simp [List.intercalate, List.intersperse]

/-- Splitting at every `/` and joining with `-` replaces every `/` by `-`. -/
theorem intercalate_splitAux_slash (cur cs : List Char) :
    List.intercalate ['-'] (strings.splitAux ['/'] 0 cur cs) =
      cur.reverse ++ cs.map (fun c => if c = '/' then '-' else c) := by
  induction cs generalizing cur with
  | nil => simp [strings.splitAux, List.intercalate, List.intersperse]
  | cons c rest ih =>
    by_cases hc : c = '/'
    · subst hc
      have hp : List.isPrefixOf ['/'] ('/' :: rest) = true := by simp [List.isPrefixOf]
      have hstep : strings.splitAux ['/'] 0 cur ('/' :: rest) =
          cur.reverse :: strings.splitAux ['/'] 0 [] rest := by
        simp [strings.splitAux, hp]
      rw [hstep]
      cases hr : strings.splitAux ['/'] 0 [] rest with
      | nil => exact absurd hr (splitAux_ne_nil _ _ _ _)
      | cons r rs =>
        rw [intercalate_cons_cons, ← hr, ih []]
        simp
    · have hp : List.isPrefixOf ['/'] (c :: rest) = false := by
        have hc2 : ¬ '/' = c := fun h => hc h.symm
        simp [List.isPrefixOf, hc2]
      have hstep : strings.splitAux ['/'] 0 cur (c :: rest) =
          strings.splitAux ['/'] 0 (c :: cur) rest := by
        simp [strings.splitAux, hp]
      rw [hstep, ih (c :: cur)]
      simp [hc]

/-- The agent name `Heal` computes is the one the spec describes. -/
theorem agentName_eq (unitName : String) :
    "juju-" ++ strings.Join (strings.Split unitName "/") "-" = agentNameSpec unitName := by
  have h : strings.Join (strings.Split unitName "/") "-" =
      String.mk (unitName.data.map (fun c => if c = '/' then '-' else c)) := by
    have hsep : ("/" : String).data = ['/'] := rfl
    have hdash : ("-" : String).data = ['-'] := rfl
    simp only [strings.Join, strings.Split, hsep, hdash, List.isEmpty_cons, Bool.false_eq_true,
      if_false, List.map_map]
    have hid : (String.data ∘ String.mk) = id := by
      funext l
      rfl
    rw [hid, List.map_id, intercalate_splitAux_slash]
    simp
  rw [h, agentNameSpec]

theorem healUnits_eq (w : JujuWorld) (units : List (String × unit)) (done : List Cmd) :
    healUnits w units done = done ++ units.flatMap (fun e =>
      if e.2.AgentState = "down" then
        [{ name := "ssh", args := ["-o", "StrictHostKeyChecking no", "-q", "-l", "ubuntu",
            e.2.PublicAddress, "sudo", "stop", agentNameSpec e.1] },
         { name := "ssh", args := ["-o", "StrictHostKeyChecking no", "-q", "-l", "ubuntu",
            e.2.PublicAddress, "sudo", "start", agentNameSpec e.1] }]
      else []) := by
  induction units generalizing done with
  | nil => simp [healUnits]
  | cons e rest ih =>
    obtain ⟨unitName, u⟩ := e
    by_cases hd : u.AgentState = "down"
    · simp only [healUnits, hd, if_true, upStartCmd, agentName_eq]
      rw [ih]
      simp [List.flatMap_cons, hd]
    · simp only [healUnits, hd, if_false]
      rw [ih]
      simp [List.flatMap_cons, hd]

theorem healServices_eq (w : JujuWorld) (services : List (String × service)) (done : List Cmd) :
    healServices w services done = done ++ services.flatMap (fun s => s.2.Units.flatMap (fun e =>
      if e.2.AgentState = "down" then
        [{ name := "ssh", args := ["-o", "StrictHostKeyChecking no", "-q", "-l", "ubuntu",
            e.2.PublicAddress, "sudo", "stop", agentNameSpec e.1] },
         { name := "ssh", args := ["-o", "StrictHostKeyChecking no", "-q", "-l", "ubuntu",
            e.2.PublicAddress, "sudo", "start", agentNameSpec e.1] }]
      else [])) := by
  induction services generalizing done with
  | nil => simp [healServices]
  | cons s rest ih =>
    obtain ⟨serviceName, sv⟩ := s
    simp only [healServices]
    rw [ih, healUnits_eq]
    simp [List.flatMap_cons]

/-- C8: for every topology snapshot and every outcome of the remote commands,
`instanceUnitHealer.Heal` returns nil and runs, unit after unit, exactly a
`stop` followed by a `start` at the public address of each unit whose agent
state is "down", for the daemon `juju-` followed by the unit's name with
every `/` replaced by `-`, and nothing for a unit in another state;
`wordpress/0` gives `juju-wordpress-0`. -/
theorem instanceUnitHeal_restarts_down_units (w : JujuWorld) :
    instanceUnitHealer.Heal w =
      (none, (w.getOutput 0).Services.flatMap (fun s => s.2.Units.flatMap (fun e =>
        if e.2.AgentState = "down" then
          [{ name := "ssh", args := ["-o", "StrictHostKeyChecking no", "-q", "-l", "ubuntu",
              e.2.PublicAddress, "sudo", "stop", agentNameSpec e.1] },
           { name := "ssh", args := ["-o", "StrictHostKeyChecking no", "-q", "-l", "ubuntu",
              e.2.PublicAddress, "sudo", "start", agentNameSpec e.1] }]
        else [])))
    ∧ agentNameSpec "wordpress/0" = "juju-wordpress-0" := by
  refine ⟨?_, by decide⟩
  simp only [instanceUnitHealer.Heal]
  rw [healServices_eq]
  simp

theorem healMachines_eq (w : JujuWorld) (machines : List (Int × machine)) (done : List Cmd) :
    healMachines w machines done = done ++ machines.flatMap (fun e =>
      if e.2.AgentState = "down" then
        [{ name := "ssh", args := ["-o", "StrictHostKeyChecking no", "-q", "-l", "ubuntu",
            e.2.IpAddress, "sudo", "stop", "juju-machine-agent"] },
         { name := "ssh", args := ["-o", "StrictHostKeyChecking no", "-q", "-l", "ubuntu",
            e.2.IpAddress, "sudo", "start", "juju-machine-agent"] }]
      else []) := by
  induction machines generalizing done with
  | nil => simp [healMachines]
  | cons e rest ih =>
    obtain ⟨number, m⟩ := e
    by_cases hd : m.AgentState = "down"
    · simp only [healMachines, hd, if_true, upStartCmd]
      rw [ih]
      simp [List.flatMap_cons, hd]
    · simp only [healMachines, hd, if_false]
      rw [ih]
      simp [List.flatMap_cons, hd]

/-- C9: for every topology snapshot and every outcome of the remote commands,
`instanceMachineHealer.Heal` returns nil and runs, machine after machine,
exactly a `stop` followed by a `start` of `juju-machine-agent` at the IP
address of each machine whose agent state is "down" and nothing for any other
machine: no outcome of a command changes what is run for the machines after
it. -/
theorem instanceMachineHeal_restarts_down_machines (w : JujuWorld) :
    instanceMachineHealer.Heal w =
      (none, (w.getOutput 0).Machines.flatMap (fun e =>
        if e.2.AgentState = "down" then
          [{ name := "ssh", args := ["-o", "StrictHostKeyChecking no", "-q", "-l", "ubuntu",
              e.2.IpAddress, "sudo", "stop", "juju-machine-agent"] },
           { name := "ssh", args := ["-o", "StrictHostKeyChecking no", "-q", "-l", "ubuntu",
              e.2.IpAddress, "sudo", "start", "juju-machine-agent"] }]
        else [])) := by
  simp only [instanceMachineHealer.Heal]
  rw [healMachines_eq]
  simp

/-! ## zookeeperHealer -/

theorem readString_eq (d : Char) (l : List Char) :
    readString d l = l.takeWhile (fun c => c != d) ++ (if d ∈ l then [d] else []) := by
  induction l with
  | nil => simp [readString]
  | cons c rest ih =>
    by_cases h : c = d
    · subst h
      simp [readString, List.takeWhile_cons]
    · have h2 : ¬ d = c := fun e => h e.symm
      simp [readString, List.takeWhile_cons, h, h2, ih]

theorem contains_iff_infix (s p : String) :
    strings.Contains s p = true ↔ p.data <:+: s.data := by
  simp only [strings.Contains, List.any_eq_true, List.mem_tails, List.isPrefixOf_iff_prefix]
  constructor
  · rintro ⟨t, ht, hp⟩
    exact List.infix_iff_prefix_suffix.2 ⟨t, hp, ht⟩
  · intro h
    obtain ⟨t, hp, ht⟩ := List.infix_iff_prefix_suffix.1 h
    exact ⟨t, ht, hp⟩

theorem infix_concat_iff (p l : List Char) (n : Char) (hp : p ≠ []) (hn : n ∉ p) :
    p <:+: l ++ [n] ↔ p <:+: l := by
  constructor
  · rintro ⟨a, b, hab⟩
    rcases List.eq_nil_or_concat b with rfl | ⟨b', x, rfl⟩
    · exfalso
      rcases List.eq_nil_or_concat p with rfl | ⟨p', y, rfl⟩
      · exact hp rfl
      · rw [List.append_nil, List.concat_eq_append, ← List.append_assoc] at hab
        have := List.append_inj_right' hab rfl
        simp at this
        simp [this] at hn
    · rw [List.concat_eq_append, ← List.append_assoc] at hab
      have := List.append_inj_left' hab rfl
      exact ⟨a, b', this⟩
  · intro h
    exact List.IsInfix.trans h (List.infix_append' [] l [n] |> fun h => by simpa using h)

theorem contains_readString (resp : String) :
    strings.Contains (String.mk (readString '\n' resp.data)) "imok" =
      strings.Contains (firstLine resp) "imok" := by
  rw [Bool.eq_iff_iff, contains_iff_infix, contains_iff_infix, readString_eq, firstLine]
  by_cases h : '\n' ∈ resp.data
  · simp only [h, if_true]
    exact infix_concat_iff _ _ _ (by decide) (by decide)
  · simp [h]
/-- C4: when the probe connects and the first line of the answer to `ruok`
contains `imok`, `zookeeperHealer.Heal` runs no command and returns nil; when
the connection fails or the first line does not contain `imok`, it runs
exactly one `stop` and then one `start` of `zookeeper` at the bootstrap
machine's address, nothing else, and returns the outcome of the `start`. -/
theorem zookeeperHeal_restarts_unless_imok (w : JujuWorld) :
    (∀ conn, w.Dial "tcp" ((getBootstrapMachine w 0).IpAddress ++ ":2181") = .ok conn →
        strings.Contains (firstLine (conn "ruok\r\n\r\n")) "imok" = true →
        zookeeperHealer.Heal w = (none, []))
    ∧ (((∃ e, w.Dial "tcp" ((getBootstrapMachine w 0).IpAddress ++ ":2181") = .error e)
        ∨ ∃ conn, w.Dial "tcp" ((getBootstrapMachine w 0).IpAddress ++ ":2181") = .ok conn
            ∧ strings.Contains (firstLine (conn "ruok\r\n\r\n")) "imok" = false) →
        (zookeeperHealer.Heal w).2 =
            [{ name := "ssh", args := ["-o", "StrictHostKeyChecking no", "-q", "-l", "ubuntu",
                (getBootstrapMachine w 1).IpAddress, "sudo", "stop", "zookeeper"] },
             { name := "ssh", args := ["-o", "StrictHostKeyChecking no", "-q", "-l", "ubuntu",
                (getBootstrapMachine w 1).IpAddress, "sudo", "start", "zookeeper"] }]
          ∧ (zookeeperHealer.Heal w).1 =
            w.Run
              [{ name := "ssh", args := ["-o", "StrictHostKeyChecking no", "-q", "-l", "ubuntu",
                  (getBootstrapMachine w 1).IpAddress, "sudo", "stop", "zookeeper"] }]
              { name := "ssh", args := ["-o", "StrictHostKeyChecking no", "-q", "-l", "ubuntu",
                  (getBootstrapMachine w 1).IpAddress, "sudo", "start", "zookeeper"] }) := by
  refine ⟨?_, ?_⟩
  · intro conn hdial hok
    have hn : zookeeperHealer.needsHeal w = false := by
      simp [zookeeperHealer.needsHeal, hdial, contains_readString, hok]
    simp [zookeeperHealer.Heal, hn]
  · intro h
    have hn : zookeeperHealer.needsHeal w = true := by
      rcases h with ⟨e, he⟩ | ⟨conn, hdial, hbad⟩
      · simp [zookeeperHealer.needsHeal, he]
      · simp [zookeeperHealer.needsHeal, hdial, contains_readString, hbad]
    simp [zookeeperHealer.Heal, hn, upStartCmd]

/-- Witness of C4: the world whose service answers `imok` runs nothing, the
world whose service cannot be reached runs the `stop` and the `start`. -/
theorem zookeeperHeal_restarts_unless_imok_witness :
    zookeeperHealer.Heal healthyJujuWorld = (none, [])
    ∧ (zookeeperHealer.Heal deadZookeeperWorld).2 =
        [{ name := "ssh", args := ["-o", "StrictHostKeyChecking no", "-q", "-l", "ubuntu",
            "10.10.10.96", "sudo", "stop", "zookeeper"] },
         { name := "ssh", args := ["-o", "StrictHostKeyChecking no", "-q", "-l", "ubuntu",
            "10.10.10.96", "sudo", "start", "zookeeper"] }] :=
  ⟨(zookeeperHeal_restarts_unless_imok healthyJujuWorld).1 (fun _ => "imok") rfl rfl,
   ((zookeeperHeal_restarts_unless_imok deadZookeeperWorld).2
      (Or.inl ⟨"connection refused", rfl⟩)).1⟩

/-! ## bootstrapInstanceIdHealer -/

theorem bucket_of_readable_blob (w : AwsWorld) (s3InstanceId : String)
    (h : bootstrapInstanceIdFromBucket w = .ok s3InstanceId) :
    ∃ jujuBucket, w.config.GetString "juju:bucket" = .ok jujuBucket := by
  cases hc : w.config.GetString "juju:bucket" with
  | error e => simp [bootstrapInstanceIdFromBucket, hc] at h
  | ok b => exact ⟨b, rfl⟩

/-- C3: for every readable state blob and every successful compute-API
listing, `Heal` writes nothing and returns nil when the id extracted from the
blob equals the observed bootstrap instance id, and when the two differ it
makes exactly one write, of the object `provider-state` of the configured
bucket, with the observed instance id as content and content type
`binary/octet-stream`. -/
theorem bootstrapInstanceIdHeal_writes_iff_ids_differ (w : AwsWorld)
    (s3InstanceId ec2InstanceId : String)
    (hblob : bootstrapInstanceIdFromBucket w = .ok s3InstanceId)
    (hec2 : bootstrapInstanceId w = .ok ec2InstanceId) :
    (s3InstanceId = ec2InstanceId →
        (bootstrapInstanceIdHealer.Heal w).writes = []
          ∧ (bootstrapInstanceIdHealer.Heal w).err = none)
    ∧ (s3InstanceId ≠ ec2InstanceId →
        ∃ jujuBucket, w.config.GetString "juju:bucket" = .ok jujuBucket
          ∧ (bootstrapInstanceIdHealer.Heal w).writes =
            [{ bucket := jujuBucket, path := "provider-state", data := ec2InstanceId,
               contType := "binary/octet-stream", perm := s3.BucketOwnerFull }]) := by
  refine ⟨?_, ?_⟩
  · intro heq
    have hn : bootstrapInstanceIdHealer.needsHeal w = false := by
      simp [bootstrapInstanceIdHealer.needsHeal, hblob, hec2, heq]
    simp [bootstrapInstanceIdHealer.Heal, hn]
  · intro hne
    have hn : bootstrapInstanceIdHealer.needsHeal w = true := by
      simp [bootstrapInstanceIdHealer.needsHeal, hblob, hec2, hne]
    obtain ⟨jujuBucket, hb⟩ := bucket_of_readable_blob w s3InstanceId hblob
    refine ⟨jujuBucket, hb, ?_⟩
    simp [bootstrapInstanceIdHealer.Heal, hn, hb, hec2]

/-- Witness of C3 on the sample world, whose blob records `i-0800` while the
compute API reports `i-0801`. -/
theorem bootstrapInstanceIdHeal_writes_iff_ids_differ_witness :
    (("i-0800" : String) = "i-0801" →
        (bootstrapInstanceIdHealer.Heal demoAwsWorld).writes = []
          ∧ (bootstrapInstanceIdHealer.Heal demoAwsWorld).err = none)
    ∧ (("i-0800" : String) ≠ "i-0801" →
        ∃ jujuBucket, demoAwsWorld.config.GetString "juju:bucket" = .ok jujuBucket
          ∧ (bootstrapInstanceIdHealer.Heal demoAwsWorld).writes =
            [{ bucket := jujuBucket, path := "provider-state", data := "i-0801",
               contType := "binary/octet-stream", perm := s3.BucketOwnerFull }]) :=
  bootstrapInstanceIdHeal_writes_iff_ids_differ demoAwsWorld "i-0800" "i-0801" rfl rfl

/-! ## Status collection -/

theorem docker.findUnit_name (store : List provision.Unit) (name : String) (u : provision.Unit)
    (h : docker.findUnit store name = some u) : u.Name = name := by
  have := List.find?_some h
  simpa using this

theorem docker.findUnit_isSome (store : List provision.Unit) (name : String) :
    (docker.findUnit store name).isSome = store.any (fun u => u.Name == name) := by
  induction store with
  | nil => simp [docker.findUnit]
  | cons u rest ih =>
    by_cases h : u.Name = name
    · simp [docker.findUnit, List.find?_cons, h]
    · have hb : (u.Name == name) = false := by simp [h]
      simpa [docker.findUnit, List.find?_cons, hb] using ih

theorem docker.collectLoop_spec (w : docker.DockerWorld) (ids : List String)
    (units : List provision.Unit) :
    (docker.collectLoop w ids units).map (fun u => u.Name) =
        units.map (fun u => u.Name) ++ ids.filter (fun id => w.store.any (fun u => u.Name == id))
      ∧ ((∀ u ∈ units, u.Ip = (w.inspect u.Name).IpAddress
            ∧ u.Status = some (if docker.portMapped w (w.inspect u.Name)
                then provision.Status.StatusStarted else provision.Status.StatusInstalling)) →
          ∀ u ∈ docker.collectLoop w ids units, u.Ip = (w.inspect u.Name).IpAddress
            ∧ u.Status = some (if docker.portMapped w (w.inspect u.Name)
                then provision.Status.StatusStarted else provision.Status.StatusInstalling)) := by
  induction ids generalizing units with
  | nil => simp [docker.collectLoop]
  | cons id rest ih =>
    cases hf : docker.findUnit w.store id with
    | none =>
      have hany : w.store.any (fun u => u.Name == id) = false := by
        rw [← docker.findUnit_isSome, hf]
        rfl
      simp only [docker.collectLoop, hf]
      obtain ⟨h1, h2⟩ := ih units
      refine ⟨?_, h2⟩
      rw [h1, List.filter_cons]
      simp [hany]
    | some r =>
      have hany : w.store.any (fun u => u.Name == id) = true := by
        rw [← docker.findUnit_isSome, hf]
        rfl
      have hname : r.Name = id := docker.findUnit_name _ _ _ hf
      simp only [docker.collectLoop, hf]
      refine ⟨?_, ?_⟩
      · rw [(ih _).1, List.filter_cons]
        simp [hany, hname]
      · intro hunits
        apply (ih _).2
        intro u hu
        rcases List.mem_append.1 hu with hu | hu
        · exact hunits u hu
        · rw [List.mem_singleton] at hu
          subst hu
          simp [hname]

/-- C10: for every running-id list and every unit store, `CollectStatus`
returns no error and exactly one unit per running id that has a stored record
with that name, in the order of the ids, and none for an id without a record;
each returned unit carries the IP address `inspect` reports for it, with
status `Started` when the inspected port mapping has an entry for the service
port and `Installing` otherwise; on the fixture of `TestCollectStatus` the
result is the two units the test expects. -/
theorem collectStatus_one_unit_per_known_id (w : docker.DockerWorld) :
    (docker.CollectStatus w).2 = none
    ∧ (docker.CollectStatus w).1.map (fun u => u.Name) =
        w.running.filter (fun id => w.store.any (fun u => u.Name == id))
    ∧ (∀ u ∈ (docker.CollectStatus w).1,
        u.Ip = (w.inspect u.Name).IpAddress
          ∧ u.Status = some (if (w.inspect u.Name).PortMapping.any (fun e => e.1 == w.port)
              then provision.Status.StatusStarted else provision.Status.StatusInstalling))
    ∧ (docker.CollectStatus docker.testCollectStatusWorld).1 =
        [ { Name := "9930c24f1c5f", AppName := "ashamed", Type_ := "python", Machine := 0,
            Ip := "127.0.0.1", InstanceId := "",
            Status := some provision.Status.StatusStarted },
          { Name := "9930c24f1c4f", AppName := "make-up", Type_ := "python", Machine := 0,
            Ip := "127.0.0.1", InstanceId := "",
            Status := some provision.Status.StatusInstalling } ] := by
  obtain ⟨h1, h2⟩ := docker.collectLoop_spec w w.running []
  refine ⟨rfl, ?_, ?_, by decide⟩
  · simpa [docker.CollectStatus] using h1
  · intro u hu
    have := h2 (by simp) u hu
    simpa [docker.portMapped] using this

/-! ## bootstrapInstanceIdHealer: the id extracted from the blob -/

theorem replaceAux_skip (old new pre rest : List Char) :
    strings.replaceAux old new pre.length (pre ++ rest) = strings.replaceAux old new 0 rest := by
  induction pre with
  | nil => simp
  | cons c p ih => simpa [strings.replaceAux] using ih

theorem replaceAux_no_match (old new s : List Char) (h : ¬ old <:+: s) :
    strings.replaceAux old new 0 s = s := by
  induction s with
  | nil => simp [strings.replaceAux]
  | cons c cs ih =>
    have hp : old.isPrefixOf (c :: cs) = false := by
      rw [Bool.eq_false_iff]
      intro hp
      exact h (List.isPrefixOf_iff_prefix.1 hp).isInfix
    have hcs : ¬ old <:+: cs := fun hi => h (List.infix_cons hi)
    simp [strings.replaceAux, hp, ih hcs]

theorem replaceAux_match (old new rest : List Char) (hold : old ≠ []) :
    strings.replaceAux old new 0 (old ++ rest) =
      new ++ strings.replaceAux old new 0 rest := by
  cases old with
  | nil => exact absurd rfl hold
  | cons c o =>
    have hp : (c :: o).isPrefixOf (c :: (o ++ rest)) = true :=
      List.isPrefixOf_iff_prefix.2 (List.prefix_append (c :: o) rest)
    have hstep : strings.replaceAux (c :: o) new 0 (c :: (o ++ rest)) =
        new ++ strings.replaceAux (c :: o) new o.length (o ++ rest) := by
      simp [strings.replaceAux, hp]
    rw [List.cons_append, hstep, replaceAux_skip]

theorem replaceAux_delete_char (d : Char) (s : List Char) :
    strings.replaceAux [d] [] 0 s = s.filter (fun c => c != d) := by
  induction s with
  | nil => simp [strings.replaceAux]
  | cons c cs ih =>
    by_cases h : c = d
    · subst h
      simp [strings.replaceAux, List.isPrefixOf, ih]
    · have h2 : ¬ d = c := fun e => h e.symm
      simp [strings.replaceAux, List.isPrefixOf, h, h2, ih]

theorem not_contains_char (s : String) (d : Char) (h : strings.Contains s (String.mk [d]) = false) :
    d ∉ s.data := by
  intro hmem
  have hinf : [d] <:+: s.data := by
    obtain ⟨a, b, hab⟩ := List.append_of_mem hmem
    exact ⟨a, b, by simp [hab]⟩
  have := ( contains_iff_infix s (String.mk [d])).2 hinf
  rw [h] at this
  exact absurd this (by simp)

/-- The two deletions of `bootstrapInstanceIdFromBucket`. -/
theorem extract_clean (id : String)
    (h1 : strings.Contains id "zookeeper-instances: [" = false)
    (h2 : strings.Contains id "]" = false) :
    strings.Replace (strings.Replace id "zookeeper-instances: [" "") "]" "" = id := by
  have hn1 : ¬ ("zookeeper-instances: [" : String).data <:+: id.data := by
    intro hi
    have := ( contains_iff_infix id "zookeeper-instances: [").2 hi
    rw [h1] at this
    exact absurd this (by simp)
  have hn2 : ']' ∉ id.data := not_contains_char id ']' h2
  have e1 : strings.Replace id "zookeeper-instances: [" "" = id := by
    have he : ("zookeeper-instances: [" : String).data.isEmpty = false := rfl
    simp only [strings.Replace, he, Bool.false_eq_true, if_false]
    rw [replaceAux_no_match _ _ _ hn1]
  rw [e1]
  have he : ("]" : String).data.isEmpty = false := rfl
  have hd : ("]" : String).data = [']'] := rfl
  have hd2 : ("" : String).data = [] := rfl
  simp only [strings.Replace, he, Bool.false_eq_true, if_false, hd, hd2]
  rw [replaceAux_delete_char, List.filter_eq_self.2]
  intro c hc
  have : c ≠ ']' := fun e => hn2 (e ▸ hc)
  simpa using this

theorem extract_wrapped (id : String)
    (h1 : strings.Contains id "zookeeper-instances: [" = false)
    (h2 : strings.Contains id "]" = false) :
    strings.Replace (strings.Replace ("zookeeper-instances: [" ++ id ++ "]")
      "zookeeper-instances: [" "") "]" "" = id := by
  have hn1 : ¬ ("zookeeper-instances: [" : String).data <:+: id.data := by
    intro hi
    have := ( contains_iff_infix id "zookeeper-instances: [").2 hi
    rw [h1] at this
    exact absurd this (by simp)
  have hn2 : ']' ∉ id.data := not_contains_char id ']' h2
  have hn3 : ¬ ("zookeeper-instances: [" : String).data <:+: id.data ++ [']'] := by
    rw [infix_concat_iff _ _ _ (by decide) (by decide)]
    exact hn1
  have e1 : strings.Replace ("zookeeper-instances: [" ++ id ++ "]") "zookeeper-instances: [" "" =
      id ++ "]" := by
    have he : ("zookeeper-instances: [" : String).data.isEmpty = false := rfl
    have hd : ("]" : String).data = [']'] := rfl
    have hd2 : ("" : String).data = [] := rfl
    simp only [strings.Replace, he, Bool.false_eq_true, if_false, String.data_append,
      List.append_assoc, hd, hd2]
    rw [replaceAux_match _ _ _ (by decide), replaceAux_no_match _ _ _ hn3]
    rfl
  rw [e1]
  have he : ("]" : String).data.isEmpty = false := rfl
  have hd : ("]" : String).data = [']'] := rfl
  have hd2 : ("" : String).data = [] := rfl
  simp only [strings.Replace, he, Bool.false_eq_true, if_false, hd, hd2, String.data_append]
  rw [replaceAux_delete_char, List.filter_append, List.filter_eq_self.2]
  · simp
  · intro c hc
    have : c ≠ ']' := fun e => hn2 (e ▸ hc)
    simpa using this

/-- C12, as the code has it: for every instance id that contains neither `]`
nor `zookeeper-instances: [`, when the content of the blob is exactly
`zookeeper-instances: [<id>]`, `bootstrapInstanceIdFromBucket` returns exactly
the id, so that `needsHeal` is false and `Heal` writes nothing whenever that
id is the one observed from the compute API. -/
theorem bootstrapInstanceIdFromBucket_of_exact_blob (w : AwsWorld) (jujuBucket id : String)
    (hcfg : w.config.GetString "juju:bucket" = .ok jujuBucket)
    (hget : w.Get jujuBucket "provider-state" = .ok ("zookeeper-instances: [" ++ id ++ "]"))
    (hclean1 : strings.Contains id "zookeeper-instances: [" = false)
    (hclean2 : strings.Contains id "]" = false) :
    bootstrapInstanceIdFromBucket w = .ok id
    ∧ (bootstrapInstanceId w = .ok id →
        bootstrapInstanceIdHealer.needsHeal w = false
          ∧ (bootstrapInstanceIdHealer.Heal w).writes = []) := by
  have hb : bootstrapInstanceIdFromBucket w = .ok id := by
    simp only [bootstrapInstanceIdFromBucket, hcfg, hget]
    rw [extract_wrapped id hclean1 hclean2]
  refine ⟨hb, fun hec2 => ?_⟩
  have hn : bootstrapInstanceIdHealer.needsHeal w = false := by
    simp [bootstrapInstanceIdHealer.needsHeal, hb, hec2]
  exact ⟨hn, by simp [bootstrapInstanceIdHealer.Heal, hn]⟩

/-- Witness of the amended C12: the blob `zookeeper-instances: [i-0800]` and
the observed id `i-0800`. -/
theorem bootstrapInstanceIdFromBucket_of_exact_blob_witness :
    bootstrapInstanceIdFromBucket (awsWorldOf "zookeeper-instances: [i-0800]" "i-0800") =
        .ok "i-0800"
    ∧ (bootstrapInstanceId (awsWorldOf "zookeeper-instances: [i-0800]" "i-0800") = .ok "i-0800" →
        bootstrapInstanceIdHealer.needsHeal
            (awsWorldOf "zookeeper-instances: [i-0800]" "i-0800") = false
          ∧ (bootstrapInstanceIdHealer.Heal
              (awsWorldOf "zookeeper-instances: [i-0800]" "i-0800")).writes = []) :=
  bootstrapInstanceIdFromBucket_of_exact_blob
    (awsWorldOf "zookeeper-instances: [i-0800]" "i-0800") "tsuru_s3_juju_bucket" "i-0800"
    rfl rfl (by decide) (by decide)

/-- C12 fails as stated: a blob that is the line `zookeeper-instances: [i-0800]`
with its line feed yields `i-0800` followed by the line feed, and `needsHeal`
is true although the compute API reports `i-0800`; a line with two leading
blanks keeps them; and for the id `i-08]00` the blob
`zookeeper-instances: [i-08]00]` yields `i-0800`. -/
theorem bootstrapInstanceIdFromBucket_keeps_the_rest_of_the_line :
    bootstrapInstanceIdFromBucket (awsWorldOf "zookeeper-instances: [i-0800]\n" "i-0800") =
        .ok "i-0800\n"
    ∧ bootstrapInstanceId (awsWorldOf "zookeeper-instances: [i-0800]\n" "i-0800") = .ok "i-0800"
    ∧ bootstrapInstanceIdHealer.needsHeal
        (awsWorldOf "zookeeper-instances: [i-0800]\n" "i-0800") = true
    ∧ bootstrapInstanceIdFromBucket (awsWorldOf "  zookeeper-instances: [i-0800]" "i-0800") =
        .ok "  i-0800"
    ∧ bootstrapInstanceIdFromBucket (awsWorldOf "zookeeper-instances: [i-08]00]" "i-08]00") =
        .ok "i-0800"
    ∧ bootstrapInstanceIdHealer.needsHeal
        (awsWorldOf "zookeeper-instances: [i-08]00]" "i-08]00") = true := by
  refine ⟨rfl, rfl, rfl, rfl, rfl, rfl⟩

/-! ## bootstrapInstanceIdHealer: running Heal again -/

theorem heal_of_not_needsHeal (w : AwsWorld)
    (hn : bootstrapInstanceIdHealer.needsHeal w = false) :
    (bootstrapInstanceIdHealer.Heal w).writes = []
      ∧ (bootstrapInstanceIdHealer.Heal w).err = none := by
  simp [bootstrapInstanceIdHealer.Heal, hn]

/-- Running `Heal` again when the observed id contains neither `]` nor
`zookeeper-instances: [`: after a `Heal` that returned nil, the id extracted
from the blob is the observed id, and a second `Heal` writes nothing and
returns nil. -/
theorem bootstrapInstanceIdHeal_idempotent_for_clean_ids (w : AwsWorld)
    (s3InstanceId ec2InstanceId : String)
    (hblob : bootstrapInstanceIdFromBucket w = .ok s3InstanceId)
    (hec2 : bootstrapInstanceId w = .ok ec2InstanceId)
    (hclean1 : strings.Contains ec2InstanceId "zookeeper-instances: [" = false)
    (hclean2 : strings.Contains ec2InstanceId "]" = false)
    (hfirst : (bootstrapInstanceIdHealer.Heal w).err = none) :
    bootstrapInstanceIdFromBucket (bootstrapInstanceIdHealer.Heal w).world = .ok ec2InstanceId
    ∧ bootstrapInstanceId (bootstrapInstanceIdHealer.Heal w).world = .ok ec2InstanceId
    ∧ (bootstrapInstanceIdHealer.Heal (bootstrapInstanceIdHealer.Heal w).world).writes = []
    ∧ (bootstrapInstanceIdHealer.Heal (bootstrapInstanceIdHealer.Heal w).world).err = none := by
  have key : bootstrapInstanceIdFromBucket (bootstrapInstanceIdHealer.Heal w).world =
        .ok ec2InstanceId
      ∧ bootstrapInstanceId (bootstrapInstanceIdHealer.Heal w).world = .ok ec2InstanceId := by
    by_cases heq : s3InstanceId = ec2InstanceId
    · have hn : bootstrapInstanceIdHealer.needsHeal w = false := by
        simp [bootstrapInstanceIdHealer.needsHeal, hblob, hec2, heq]
      have hw : (bootstrapInstanceIdHealer.Heal w).world = w := by
        simp [bootstrapInstanceIdHealer.Heal, hn]
      rw [hw]
      exact ⟨by rw [hblob, heq], hec2⟩
    · have hn : bootstrapInstanceIdHealer.needsHeal w = true := by
        simp [bootstrapInstanceIdHealer.needsHeal, hblob, hec2, heq]
      obtain ⟨jujuBucket, hb⟩ := bucket_of_readable_blob w s3InstanceId hblob
      cases hput : w.Put (PutCall.mk jujuBucket "provider-state" ec2InstanceId
          "binary/octet-stream" s3.BucketOwnerFull) with
      | some e =>
        simp [bootstrapInstanceIdHealer.Heal, hn, hb, hec2, bucketPut, hput] at hfirst
      | none =>
        have hw : (bootstrapInstanceIdHealer.Heal w).world =
            { w with Get := fun b path =>
                if b = jujuBucket ∧ path = "provider-state" then .ok ec2InstanceId
                else w.Get b path } := by
          simp [bootstrapInstanceIdHealer.Heal, hn, hb, hec2, bucketPut, hput]
        rw [hw]
        refine ⟨?_, ?_⟩
        · simp only [bootstrapInstanceIdFromBucket, hb, and_self, if_true]
          rw [extract_clean ec2InstanceId hclean1 hclean2]
        · simpa [bootstrapInstanceId] using hec2
  obtain ⟨k1, k2⟩ := key
  have hn2 : bootstrapInstanceIdHealer.needsHeal (bootstrapInstanceIdHealer.Heal w).world
      = false := by
    simp [bootstrapInstanceIdHealer.needsHeal, k1, k2]
  obtain ⟨h1, h2⟩ := heal_of_not_needsHeal _ hn2
  exact ⟨k1, k2, h1, h2⟩

theorem instanceId_chars (s : String) (h : isInstanceId s = true) :
    ∀ c ∈ s.data, c ∈ "i-0123456789abcdef".data := by
  simp only [isInstanceId, Bool.and_eq_true, decide_eq_true_eq, List.all_eq_true] at h
  obtain ⟨⟨hpre, -⟩, hdigits⟩ := h
  obtain ⟨t, ht⟩ := List.isPrefixOf_iff_prefix.1 hpre
  have hdrop : s.data.drop 2 = t := by
    rw [← ht]
    rfl
  intro c hc
  rw [← ht] at hc
  rcases List.mem_append.1 hc with hc | hc
  · have : c = 'i' ∨ c = '-' := by simpa using hc
    rcases this with rfl | rfl <;> decide
  · have hhex := hdigits c (hdrop ▸ hc)
    have hmem : c ∈ "0123456789abcdef".data := List.elem_iff.1 hhex
    have hsub : ∀ x ∈ "0123456789abcdef".data, x ∈ "i-0123456789abcdef".data := by decide
    exact hsub c hmem

/-- An instance id contains neither of the two markers that
`bootstrapInstanceIdFromBucket` deletes. -/
theorem instanceId_clean (s : String) (h : isInstanceId s = true) :
    strings.Contains s "zookeeper-instances: [" = false ∧ strings.Contains s "]" = false := by
  have hchars := instanceId_chars s h
  refine ⟨?_, ?_⟩
  · rw [Bool.eq_false_iff]
    intro hc
    have hinf := ( contains_iff_infix s "zookeeper-instances: [").1 hc
    have hmem : '[' ∈ s.data := hinf.subset (by decide)
    exact absurd (hchars _ hmem) (by decide)
  · rw [Bool.eq_false_iff]
    intro hc
    have hinf := ( contains_iff_infix s "]").1 hc
    have hmem : ']' ∈ s.data := hinf.subset (by decide)
    exact absurd (hchars _ hmem) (by decide)

/-- C11: `bootstrapInstanceIdHealer.Heal` is idempotent: for every initial
blob content and every compute-API state that reports a bootstrap instance id
(`i-` followed by hexadecimal digits), after a `Heal` that returned nil (its
write, if any, succeeded), a second `Heal` against the unchanged compute-API
state finds the id extracted from the blob equal to the observed id, performs
no write and returns nil. -/
theorem bootstrapInstanceIdHeal_twice_is_noop (w : AwsWorld)
    (s3InstanceId ec2InstanceId : String)
    (hblob : bootstrapInstanceIdFromBucket w = .ok s3InstanceId)
    (hec2 : bootstrapInstanceId w = .ok ec2InstanceId)
    (hid : isInstanceId ec2InstanceId = true)
    (hfirst : (bootstrapInstanceIdHealer.Heal w).err = none) :
    bootstrapInstanceIdFromBucket (bootstrapInstanceIdHealer.Heal w).world = .ok ec2InstanceId
    ∧ bootstrapInstanceId (bootstrapInstanceIdHealer.Heal w).world = .ok ec2InstanceId
    ∧ (bootstrapInstanceIdHealer.Heal (bootstrapInstanceIdHealer.Heal w).world).writes = []
    ∧ (bootstrapInstanceIdHealer.Heal (bootstrapInstanceIdHealer.Heal w).world).err = none := by
  obtain ⟨hclean1, hclean2⟩ := instanceId_clean ec2InstanceId hid
  exact bootstrapInstanceIdHeal_idempotent_for_clean_ids w s3InstanceId ec2InstanceId
    hblob hec2 hclean1 hclean2 hfirst

/-- Witness of C11 on the sample world, whose blob records `i-0800` while the
compute API reports `i-0801`: the first `Heal` writes `i-0801`, the second
writes nothing. -/
theorem bootstrapInstanceIdHeal_twice_is_noop_witness :
    bootstrapInstanceIdFromBucket (bootstrapInstanceIdHealer.Heal demoAwsWorld).world =
        .ok "i-0801"
    ∧ bootstrapInstanceId (bootstrapInstanceIdHealer.Heal demoAwsWorld).world = .ok "i-0801"
    ∧ (bootstrapInstanceIdHealer.Heal
        (bootstrapInstanceIdHealer.Heal demoAwsWorld).world).writes = []
    ∧ (bootstrapInstanceIdHealer.Heal
        (bootstrapInstanceIdHealer.Heal demoAwsWorld).world).err = none :=
  bootstrapInstanceIdHeal_twice_is_noop demoAwsWorld "i-0800" "i-0801" rfl rfl (by decide) rfl

/-! ## bootstrapInstanceIdHealer: no bootstrap instance, failing lookups -/

theorem scanGroups_none (reservation : Reservation) (groups : List SecurityGroup)
    (h : ∀ g ∈ groups, g.Name = "juju-delta-0" → reservation.Instances = []) :
    scanGroups reservation groups = none := by
  induction groups with
  | nil => simp [scanGroups]
  | cons g rest ih =>
    have hrest : ∀ g' ∈ rest, g'.Name = "juju-delta-0" → reservation.Instances = [] :=
      fun g' hg' => h g' (List.mem_cons_of_mem _ hg')
    by_cases hname : g.Name = "juju-delta-0"
    · have hempty := h g (List.mem_cons_self _ _) hname
      simp [scanGroups, hname, hempty, ih hrest]
    · simp [scanGroups, hname, ih hrest]

theorem scanReservations_empty (reservations : List Reservation)
    (h : ∀ r ∈ reservations,
      (∃ g ∈ r.SecurityGroups, g.Name = "juju-delta-0") → r.Instances = []) :
    scanReservations reservations = "" := by
  induction reservations with
  | nil => simp [scanReservations]
  | cons r rest ih =>
    have hr : scanGroups r r.SecurityGroups = none :=
      scanGroups_none r r.SecurityGroups
        (fun g hg hname => h r (List.mem_cons_self _ _) ⟨g, hg, hname⟩)
    have hrest := ih (fun r' hr' => h r' (List.mem_cons_of_mem _ hr'))
    simp [scanReservations, hr, hrest]

/-- C14: when the listing succeeds but no reservation with a security group
named `juju-delta-0` holds an instance, `bootstrapInstanceId` returns the
empty string and no error, and for every readable blob whose extracted id is
non-empty `Heal` makes the one write of `provider-state` with empty content;
when either lookup returns an error, `Heal` performs no write and returns
nil. -/
theorem bootstrapInstanceIdHeal_without_bootstrap_instance (w : AwsWorld) :
    (∀ reservations, w.Instances = .ok reservations →
        (∀ r ∈ reservations,
          (∃ g ∈ r.SecurityGroups, g.Name = "juju-delta-0") → r.Instances = []) →
        bootstrapInstanceId w = .ok ""
          ∧ ∀ s3InstanceId, bootstrapInstanceIdFromBucket w = .ok s3InstanceId →
              s3InstanceId ≠ "" →
              ∃ jujuBucket, w.config.GetString "juju:bucket" = .ok jujuBucket
                ∧ (bootstrapInstanceIdHealer.Heal w).writes =
                  [{ bucket := jujuBucket, path := "provider-state", data := "",
                     contType := "binary/octet-stream", perm := s3.BucketOwnerFull }])
    ∧ (((∃ e, bootstrapInstanceIdFromBucket w = .error e)
          ∨ ∃ e, bootstrapInstanceId w = .error e) →
        (bootstrapInstanceIdHealer.Heal w).writes = []
          ∧ (bootstrapInstanceIdHealer.Heal w).err = none) := by
  refine ⟨?_, ?_⟩
  · intro reservations hlist hnone
    have hid : bootstrapInstanceId w = .ok "" := by
      simp [bootstrapInstanceId, hlist, scanReservations_empty reservations hnone]
    refine ⟨hid, ?_⟩
    intro s3InstanceId hblob hne
    have hn : bootstrapInstanceIdHealer.needsHeal w = true := by
      simp [bootstrapInstanceIdHealer.needsHeal, hblob, hid, hne]
    obtain ⟨jujuBucket, hb⟩ := bucket_of_readable_blob w s3InstanceId hblob
    exact ⟨jujuBucket, hb, by simp [bootstrapInstanceIdHealer.Heal, hn, hb, hid]⟩
  · intro herr
    have hn : bootstrapInstanceIdHealer.needsHeal w = false := by
      rcases herr with ⟨e, he⟩ | ⟨e, he⟩
      · simp [bootstrapInstanceIdHealer.needsHeal, he]
      · cases hb : bootstrapInstanceIdFromBucket w with
        | error e' => simp [bootstrapInstanceIdHealer.needsHeal, hb]
        | ok s => simp [bootstrapInstanceIdHealer.needsHeal, hb, he]
    simp [bootstrapInstanceIdHealer.Heal, hn]

/-- Witness of C14: the world without a bootstrap instance gets the empty
write, the world whose compute API cannot be reached gets none. -/
theorem bootstrapInstanceIdHeal_without_bootstrap_instance_witness :
    (bootstrapInstanceId noBootstrapInstanceWorld = .ok ""
      ∧ ∀ s3InstanceId, bootstrapInstanceIdFromBucket noBootstrapInstanceWorld =
            .ok s3InstanceId →
          s3InstanceId ≠ "" →
          ∃ jujuBucket,
            noBootstrapInstanceWorld.config.GetString "juju:bucket" = .ok jujuBucket
              ∧ (bootstrapInstanceIdHealer.Heal noBootstrapInstanceWorld).writes =
                [{ bucket := jujuBucket, path := "provider-state", data := "",
                   contType := "binary/octet-stream", perm := s3.BucketOwnerFull }])
    ∧ ((bootstrapInstanceIdHealer.Heal unreachableEc2World).writes = []
      ∧ (bootstrapInstanceIdHealer.Heal unreachableEc2World).err = none) :=
  ⟨(bootstrapInstanceIdHeal_without_bootstrap_instance noBootstrapInstanceWorld).1 _ rfl
      (by decide),
   (bootstrapInstanceIdHeal_without_bootstrap_instance unreachableEc2World).2
      (Or.inr ⟨"connection refused", rfl⟩)⟩

/-! ## The registry and the rows of the table -/

theorem row_bootstrapMachine : spec.rowBootstrapMachine bootstrapMachineHealer.Heal := by
  intro w
  refine ⟨?_, ?_⟩
  · intro h
    have hn : bootstrapMachineHealer.needsHeal w = true := by
      simp [bootstrapMachineHealer.needsHeal, h]
    simp [bootstrapMachineHealer.Heal, hn, upStartCmd, spec.remote]
  · intro h
    have hn : bootstrapMachineHealer.needsHeal w = false := by
      simp [bootstrapMachineHealer.needsHeal, h]
    simp [bootstrapMachineHealer.Heal, hn]

theorem row_bootstrapProvision : spec.rowBootstrapProvision bootstrapProvisionHealer.Heal := by
  intro w
  simp [bootstrapProvisionHealer.Heal, upStartCmd, spec.remote]

theorem row_instanceMachine : spec.rowInstanceMachine instanceMachineHealer.Heal := by
  intro w
  simp only [instanceMachineHealer.Heal, spec.remote]
  rw [healMachines_eq]
  simp

theorem row_instanceUnit : spec.rowInstanceUnit instanceUnitHealer.Heal := by
  intro w
  simp only [instanceUnitHealer.Heal, spec.remote]
  rw [healServices_eq]
  simp

theorem ensureDns_eq (w : AgentsWorld) (fails : Cmd → Bool)
    (hfails : ∀ done c, (w.juju.Run done c).isSome = fails c)
    (dns address file : String) (done : List Cmd) :
    ensureDns w dns address file done =
      done ++ spec.checkAndRewrite fails dns address file := by
  have h := hfails done (grepCmd dns address file)
  cases hr : w.juju.Run done (grepCmd dns address file) with
  | none =>
    rw [hr] at h
    have hf : fails (grepCmd dns address file) = false := by simpa using h.symm
    simp [ensureDns, hr, spec.checkAndRewrite, hf]
  | some e =>
    rw [hr] at h
    have hf : fails (grepCmd dns address file) = true := by simpa using h.symm
    simp [ensureDns, hr, spec.checkAndRewrite, hf]

theorem agentConfigPath_eq (unitName : String) :
    "/etc/init/juju-" ++ strings.Join (strings.Split unitName "/") "-" ++ ".conf" =
      "/etc/init/" ++ agentNameSpec unitName ++ ".conf" := by
  rw [← agentName_eq, ← String.append_assoc]
  rfl

theorem agentsConfigUnits_eq (w : AgentsWorld) (fails : Cmd → Bool)
    (hfails : ∀ done c, (w.juju.Run done c).isSome = fails c)
    (dns : String) (units : List (String × unit)) (done : List Cmd) :
    agentsConfigUnits w dns units done = done ++ units.flatMap (fun e =>
      spec.checkAndRewrite fails dns e.2.PublicAddress "/etc/init/juju-machine-agent.conf" ++
        spec.checkAndRewrite fails dns e.2.PublicAddress
          ("/etc/init/" ++ agentNameSpec e.1 ++ ".conf")) := by
  induction units generalizing done with
  | nil => simp [agentsConfigUnits]
  | cons e rest ih =>
    obtain ⟨unitName, u⟩ := e
    simp only [agentsConfigUnits]
    rw [ih, ensureDns_eq w fails hfails, ensureDns_eq w fails hfails, agentConfigPath_eq]
    simp [List.flatMap_cons, List.append_assoc]

theorem agentsConfigServices_eq (w : AgentsWorld) (fails : Cmd → Bool)
    (hfails : ∀ done c, (w.juju.Run done c).isSome = fails c)
    (dns : String) (services : List (String × service)) (done : List Cmd) :
    agentsConfigServices w dns services done = done ++ services.flatMap (fun s =>
      s.2.Units.flatMap (fun e =>
        spec.checkAndRewrite fails dns e.2.PublicAddress "/etc/init/juju-machine-agent.conf" ++
          spec.checkAndRewrite fails dns e.2.PublicAddress
            ("/etc/init/" ++ agentNameSpec e.1 ++ ".conf"))) := by
  induction services generalizing done with
  | nil => simp [agentsConfigServices]
  | cons s rest ih =>
    obtain ⟨serviceName, sv⟩ := s
    simp only [agentsConfigServices]
    rw [ih, agentsConfigUnits_eq w fails hfails]
    simp [List.flatMap_cons, List.append_assoc]

theorem row_instanceAgentsConfig :
    spec.rowInstanceAgentsConfig instanceAgentsConfigHealer.Heal := by
  intro w dns fails hdns hfails
  simp only [instanceAgentsConfigHealer.Heal, hdns]
  rw [agentsConfigServices_eq w fails hfails]
  simp

theorem row_zookeeper : spec.rowZookeeper zookeeperHealer.Heal := by
  intro w
  refine ⟨?_, ?_⟩
  · intro conn hdial hok
    have hn : zookeeperHealer.needsHeal w = false := by
      simp [zookeeperHealer.needsHeal, hdial, contains_readString, hok]
    simp [zookeeperHealer.Heal, hn]
  · intro h
    have hn : zookeeperHealer.needsHeal w = true := by
      rcases h with ⟨e, he⟩ | ⟨conn, hdial, hbad⟩
      · simp [zookeeperHealer.needsHeal, he]
      · simp [zookeeperHealer.needsHeal, hdial, contains_readString, hbad]
    simp [zookeeperHealer.Heal, hn, upStartCmd, spec.remote]

theorem row_bootstrapInstanceId :
    spec.rowBootstrapInstanceId bootstrapInstanceIdHealer.Heal := by
  intro w s3InstanceId ec2InstanceId hblob hec2
  refine ⟨?_, ?_⟩
  · intro heq
    have hn : bootstrapInstanceIdHealer.needsHeal w = false := by
      simp [bootstrapInstanceIdHealer.needsHeal, hblob, hec2, heq]
    exact (heal_of_not_needsHeal w hn).1
  · intro hne
    have hn : bootstrapInstanceIdHealer.needsHeal w = true := by
      simp [bootstrapInstanceIdHealer.needsHeal, hblob, hec2, hne]
    obtain ⟨jujuBucket, hb⟩ := bucket_of_readable_blob w s3InstanceId hblob
    exact ⟨jujuBucket, hb, by simp [bootstrapInstanceIdHealer.Heal, hn, hb, hec2]⟩

theorem checkLoop_calls (w : ElbWorld) (states : String → List InstanceState)
    (hH : ∀ lb, w.DescribeInstanceHealth lb = .ok (states lb))
    (lbs : List String) (unhealthy : List elbInstance) :
    checkLoop w lbs unhealthy =
      (.ok (unhealthy ++
          (lbs.flatMap (fun lb => (states lb).map (instanceOf lb))).filter matchesTriad),
        lbs.map (fun lb => ElbCall.DescribeInstanceHealth lb (.ok (states lb)))) := by
  induction lbs generalizing unhealthy with
  | nil => simp [checkLoop]
  | cons lb rest ih =>
    simp only [checkLoop, describeInstancesHealth, hH lb]
    rw [ih, appendMatching_eq]
    simp [List.flatMap_cons, List.filter_append, List.append_assoc]

theorem getBoolOrFalse_eq_true (c : Config) (key : String) :
    getBoolOrFalse c key = true ↔ c.GetBool key = .ok true := by
  cases h : c.GetBool key with
  | error e => simp [getBoolOrFalse, h]
  | ok b => cases b <;> simp [getBoolOrFalse, h]

theorem row_elbInstance : spec.rowElbInstance elbInstanceHealer.Heal := by
  intro w descs states hL hH hR hA
  refine ⟨?_, ?_⟩
  · intro hen hne
    rw [triad_filter_eq]
    have hempty : ¬ (getUnhealthyApps w).length = 0 :=
      fun h => hne (List.length_eq_zero.1 h)
    have hb : getBoolOrFalse w.config "juju:use-elb" = true :=
      (getBoolOrFalse_eq_true _ _).2 hen
    have hci : checkInstances w (w.rangeOrder (getUnhealthyApps w).keys) =
        (.ok (((descs (w.rangeOrder (getUnhealthyApps w).keys)).flatMap (fun d =>
            (states d.LoadBalancerName).map (instanceOf d.LoadBalancerName))).filter
              matchesTriad),
          ElbCall.DescribeLoadBalancers (w.rangeOrder (getUnhealthyApps w).keys) ::
            (descs (w.rangeOrder (getUnhealthyApps w).keys)).map (fun d =>
              ElbCall.DescribeInstanceHealth d.LoadBalancerName
                (.ok (states d.LoadBalancerName)))) := by
      simp only [checkInstances, hb, describeLoadBalancers, hL]
      rw [checkLoop_calls w states hH]
      simp [List.flatMap_map, List.map_map, Function.comp_def]
    simp only [elbInstanceHealer.Heal, hempty, if_false, hci]
    by_cases hlen : (((descs (w.rangeOrder (getUnhealthyApps w).keys)).flatMap (fun d =>
        (states d.LoadBalancerName).map (instanceOf d.LoadBalancerName))).filter
          matchesTriad).length > 0
    · rw [if_pos hlen, healInstances_all_succeed w _ hR hA]
      simp
    · have hnil : ((descs (w.rangeOrder (getUnhealthyApps w).keys)).flatMap (fun d =>
          (states d.LoadBalancerName).map (instanceOf d.LoadBalancerName))).filter
            matchesTriad = [] := by
        cases hf : ((descs (w.rangeOrder (getUnhealthyApps w).keys)).flatMap (fun d =>
          (states d.LoadBalancerName).map (instanceOf d.LoadBalancerName))).filter
            matchesTriad with
        | nil => rfl
        | cons a l => rw [hf] at hlen; simp at hlen
      rw [if_neg hlen, hnil]
      simp
  · intro hoff
    by_cases hempty : (getUnhealthyApps w).length = 0
    · simp [elbInstanceHealer.Heal, hempty]
    · have hne : getUnhealthyApps w ≠ [] := fun h => hempty (by simp [h])
      have hb : getBoolOrFalse w.config "juju:use-elb" = false := by
        rcases hoff with h | h
        · rw [Bool.eq_false_iff]
          exact fun hb => h ((getBoolOrFalse_eq_true _ _).1 hb)
        · exact absurd h hne
      have hc : checkInstances w (w.rangeOrder (getUnhealthyApps w).keys) = (.ok [], []) := by
        simp [checkInstances, hb]
      simp [elbInstanceHealer.Heal, hempty, hc]

/-- The row `elb-instance` is not satisfied by a healer that makes no call:
in the sample world the lookup, the health call and the replacement of
`i-0800` are required. -/
theorem rowElbInstance_excludes_idle_healer :
    ¬ spec.rowElbInstance (fun _ => (none, [])) := by
  intro h
  have h1 := (h demoElbWorld (fun ns => ns.map LoadBalancerDescription.mk) demoStates
    (fun _ => rfl) (fun _ => rfl) (fun _ _ => rfl) (fun _ _ => rfl)).1 rfl (by decide)
  simp at h1

theorem init_names :
    heal.names (init []) =
      ["bootstrap", "bootstrap-provision", "instance-machine", "instance-agents-config",
       "instance-unit", "zookeeper", "elb-instance", "bootstrap-instanceid"] := rfl

/-- C13, as the code has it: the names under which `init` registers healers
are pairwise distinct and are exactly eight: `bootstrap`,
`bootstrap-provision`, `instance-machine`, `instance-agents-config`,
`instance-unit`, `zookeeper`, `elb-instance` and `bootstrap-instanceid`;
`bootstrap` is bound to the healer with the detection and remediation of the
row of the bootstrap machine, and every other name to the healer with the
detection and remediation of the row of that name. -/
theorem init_registers_eight_distinct_healers :
    heal.names (init []) =
      ["bootstrap", "bootstrap-provision", "instance-machine", "instance-agents-config",
       "instance-unit", "zookeeper", "elb-instance", "bootstrap-instanceid"]
    ∧ (heal.names (init [])).Nodup
    ∧ (∃ h, heal.Get (init []) "bootstrap" = some (heal.Healer.onJuju h)
        ∧ spec.rowBootstrapMachine h)
    ∧ (∃ h, heal.Get (init []) "bootstrap-provision" = some (heal.Healer.onJuju h)
        ∧ spec.rowBootstrapProvision h)
    ∧ (∃ h, heal.Get (init []) "instance-machine" = some (heal.Healer.onJuju h)
        ∧ spec.rowInstanceMachine h)
    ∧ (∃ h, heal.Get (init []) "instance-unit" = some (heal.Healer.onJuju h)
        ∧ spec.rowInstanceUnit h)
    ∧ (∃ h, heal.Get (init []) "instance-agents-config" = some (heal.Healer.onAgents h)
        ∧ spec.rowInstanceAgentsConfig h)
    ∧ (∃ h, heal.Get (init []) "zookeeper" = some (heal.Healer.onJuju h)
        ∧ spec.rowZookeeper h)
    ∧ (∃ h, heal.Get (init []) "bootstrap-instanceid" = some (heal.Healer.onAws h)
        ∧ spec.rowBootstrapInstanceId h)
    ∧ (∃ h, heal.Get (init []) "elb-instance" = some (heal.Healer.onElb h)
        ∧ spec.rowElbInstance h) := by
  refine ⟨init_names, ?_, ⟨_, rfl, row_bootstrapMachine⟩, ⟨_, rfl, row_bootstrapProvision⟩,
    ⟨_, rfl, row_instanceMachine⟩, ⟨_, rfl, row_instanceUnit⟩,
    ⟨_, rfl, row_instanceAgentsConfig⟩, ⟨_, rfl, row_zookeeper⟩,
    ⟨_, rfl, row_bootstrapInstanceId⟩, ⟨_, rfl, row_elbInstance⟩⟩
  rw [init_names]
  decide

/-- C13 fails as stated: `init` registers no healer under the name
`bootstrap-machine`; the healer of the bootstrap machine is registered under
the name `bootstrap`. -/
theorem init_does_not_register_bootstrap_machine :
    "bootstrap-machine" ∉ heal.names (init [])
    ∧ (heal.Get (init []) "bootstrap-machine").isNone = true
    ∧ (heal.Get (init []) "bootstrap").isSome = true := by
  refine ⟨?_, rfl, rfl⟩
  rw [init_names]
  decide

end Tsuru
